import Mathlib

/-!
# Runtime resolution and caching installer

A shallow embedding of `pkg/runtime/install.go` and `pkg/nodejs/yarn.go`.

The Go functions work on a build context, a layer (a directory plus a metadata
record) and the network. Here the layer record, the contents of the layer
directory, the `PATH` variable and the sequence of calls made to the build
context form an explicit `World` that every function takes and hands back.
Everything the two files call but do not define (the fetch primitives, process
execution, the version catalogue, the semantic-version parser, ...) is a field
of `Env`, so that every theorem holds whatever those collaborators answer.
-/

set_option autoImplicit false

namespace Buildpacks

/-! ## Data model -/

/-- A filesystem entry: a file with its content, or a directory with its named entries. -/
inductive Node where
  | file (content : String) : Node
  | dir (entries : List (String × Node)) : Node

/-- The entries of one directory, by name. -/
abbrev Dir := List (String × Node)

/-- The fields of `libcnb.Layer` that the two files read or write. Metadata values are
strings: `ctx.GetMetadata` aborts the build on any other value. -/
structure Layer where
  Name : String
  Path : String
  Cache : Bool
  Launch : Bool
  Build : Bool
  Metadata : List (String × String)
  deriving DecidableEq, Repr

/-- Error values. `raw` is an error handed back by a collaborator and passed on as is; the
other three are `fmt.Errorf`, `gcp.InternalErrorf` and `gcp.UserErrorf` with their format
string and arguments. -/
inductive Error where
  | raw (msg : String)
  | Errorf (format : String) (args : List String)
  | InternalErrorf (format : String) (args : List String)
  | UserErrorf (format : String) (args : List String)
  deriving DecidableEq, Repr

/-- The calls a function makes on the build context, the fetch package and the operating
system, in the order it makes them. -/
inductive Event where
  | Warnf (format : String) (args : List String)
  | Logf (format : String) (args : List String)
  | CacheHit (tag : String)
  | CacheMiss (tag : String)
  | AddBOMEntry (name version : String) (launch build : Bool)
  | ClearLayer (name : String)
  | Tarball (url dir : String) (stripComponents : Nat)
  | GetURL (url dest : String)
  | Exec (cmd : List String)
  | TempFile (dir pattern : String)
  | MkdirAll (path : String)
  | OpenFile (path : String)
  | Rename (oldpath newpath : String)
  | Remove (path : String)
  | Setenv (key value : String)
  deriving DecidableEq, Repr

/-- A parsed semantic version, as the `semver.Version` record holds it. -/
structure Version where
  major : Nat
  minor : Nat
  patch : Nat
  pre : String
  metadata : String
  original : String
  deriving DecidableEq, Repr

/-- The part of `package.json` that `requestedYarnVersion` reads: `engines.yarn`. -/
structure PackageJSON where
  enginesYarn : String
  deriving DecidableEq, Repr

/-- What the two files call but do not define. Each field is the answer of one collaborator
as a function of its arguments. -/
structure Env where
  /-- `ctx.StackID()` -/
  StackID : String
  /-- `ctx.ApplicationRoot()` -/
  ApplicationRoot : String
  /-- `version.IsExactSemver` -/
  IsExactSemver : String → Bool
  /-- `version.ResolveVersion` -/
  versionResolveVersion : String → List String → Except String String
  /-- `fetch.JSON` into a `[]string` -/
  JSON : String → Except String (List String)
  /-- `fetch.Tarball url dir stripComponents` on the contents of `dir`: the error, if any,
  and the contents of `dir` afterwards. A fetch that fails part-way leaves in `dir` whatever
  it had unpacked by then. -/
  Tarball : String → String → Nat → Dir → Option String × Dir
  /-- `fetch.GetURL`: the error, if any, and the bytes it has written to the open file. A
  download that fails part-way has written the part of the body that had arrived. -/
  GetURL : String → Option String × String
  /-- Failure of `ctx.ClearLayer`: the error and what is left of the directory. -/
  clearLayerFailure : String → Dir → Option (String × Dir)
  /-- `ctx.Exec`: the error, if any, and the contents of the layer directory afterwards. -/
  Exec : List String → Dir → Option String × Dir
  /-- `ioutil.TempFile dir pattern`: the random string it puts in place of the star of the
  pattern to name the file it creates, or the error. -/
  TempFile : String → String → Except String String
  /-- Failure of `os.MkdirAll` for a reason outside the modelled directory. -/
  MkdirAll : String → Option String
  /-- Failure of `os.OpenFile` for a reason outside the modelled directory. -/
  OpenFile : String → Option String
  /-- Failure of `ctx.Setenv`. -/
  Setenv : String → String → Option String
  /-- `semver.NewVersion`: `error` stands for the `(nil, err)` result. -/
  NewVersion : String → Except String Version
  /-- The library's comparison of two non-empty pre-release strings. -/
  comparePrerelease : String → String → Int
  /-- `ReadPackageJSONIfExists`: `ok none` is the `(nil, nil)` result. -/
  ReadPackageJSONIfExists : String → Except String (Option PackageJSON)
  /-- `latestPackageVersion` -/
  latestPackageVersion : String → Except String String
  /-- `resolvePackageVersion` -/
  resolvePackageVersion : String → String → Except String String

/-- The state a call works on: the layer record, the contents of the directory at
`layer.Path`, the `PATH` variable of the process, and the calls made so far. -/
structure World where
  layer : Layer
  files : Dir
  PATH : String
  log : List Event

/-- Record one call. -/
def World.emit (w : World) (e : Event) : World :=
  { w with log := w.log ++ [e] }

/-! ## Go library functions used by the two files -/

/-- Go `strings.HasPrefix`. -/
def HasPrefix (s p : String) : Bool :=
  p.data.isPrefixOf s.data

/-- Go `strings.ReplaceAll(s, "+", "_")`. -/
def replacePlus (s : String) : String :=
  String.mk (s.data.map fun c => if c = '+' then '_' else c)

/-- Split a path at every slash. -/
def splitSlash : List Char → List (List Char)
  | [] => [[]]
  | c :: cs =>
    match splitSlash cs with
    | [] => [[c]]
    | seg :: rest => if c = '/' then [] :: seg :: rest else (c :: seg) :: rest

/-- One step of Go `path.Clean` over the components kept so far (innermost first). -/
def cleanStep (rooted : Bool) (stack : List (List Char)) (seg : List Char) : List (List Char) :=
  if seg = [] ∨ seg = ['.'] then stack
  else if seg = ['.', '.'] then
    match stack with
    | [] => if rooted then [] else [seg]
    | top :: below => if top = ['.', '.'] then seg :: stack else below
  else seg :: stack

/-- Go `path.Clean` (and `filepath.Clean` on Linux). -/
def Clean (p : String) : String :=
  let rooted := p.data.head? = some '/'
  let kept := ((splitSlash p.data).foldl (cleanStep rooted) []).reverse
  let body := String.mk (List.intercalate ['/'] kept)
  if rooted then "/" ++ body
  else if body = "" then "." else body

/-- Go `path.Join` (and `filepath.Join` on Linux): empty elements are ignored, the rest are
joined with slashes and cleaned; with nothing to join the result is empty. -/
def Join (elem : List String) : String :=
  match elem.filter (fun e => e ≠ "") with
  | [] => ""
  | es => Clean (String.mk (List.intercalate ['/'] (es.map String.data)))

/-- Drop the last path element and the slash before it. -/
def dropLastElem (cs : List Char) : List Char :=
  (cs.reverse.dropWhile (fun c => c ≠ '/')).reverse

/-- Go `filepath.Dir`. -/
def filepathDir (p : String) : String :=
  Clean (String.mk (dropLastElem p.data))

/-- The first entry called `name`, if any. -/
def lookupEntry (name : String) (d : Dir) : Option Node :=
  d.lookup name

/-- Drop the entries called `name`. -/
def eraseEntry (name : String) (d : Dir) : Dir :=
  d.filter (fun e => e.1 ≠ name)

/-- Put `node` under `name`, in place of an entry of that name if there is one. -/
def setEntry (name : String) (node : Node) : Dir → Dir
  | [] => [(name, node)]
  | e :: rest => if e.1 = name then (name, node) :: rest else e :: setEntry name node rest

/-! ## Semantic versions -/

/-- The library's `compareSegment`. -/
def compareSegment (v o : Nat) : Int :=
  if v < o then -1 else if v > o then 1 else 0

/-- Precedence of two versions as `(*Version).Compare` computes it: major, minor and patch
in turn, then a version with a pre-release below the same version without one. -/
def Version.Compare (env : Env) (v o : Version) : Int :=
  if compareSegment v.major o.major ≠ 0 then compareSegment v.major o.major
  else if compareSegment v.minor o.minor ≠ 0 then compareSegment v.minor o.minor
  else if compareSegment v.patch o.patch ≠ 0 then compareSegment v.patch o.patch
  else if v.pre = "" ∧ o.pre = "" then 0
  else if v.pre = "" then 1
  else if o.pre = "" then -1
  else env.comparePrerelease v.pre o.pre

/-- The method `(*Version).LessThan`. -/
def Version.LessThan (env : Env) (v o : Version) : Bool :=
  Version.Compare env v o < 0

/-! ## `pkg/runtime/install.go` -/

/-- The Go type `InstallableRuntime`, a string type. -/
abbrev InstallableRuntime := String

def Nodejs : InstallableRuntime := "nodejs"
def PHP : InstallableRuntime := "php"
def Python : InstallableRuntime := "python"
def Ruby : InstallableRuntime := "ruby"
def Nginx : InstallableRuntime := "nginx"
def Pid1 : InstallableRuntime := "pid1"
def DotnetSDK : InstallableRuntime := "dotnetsdk"
def AspNetCore : InstallableRuntime := "aspnetcore"
def OpenJDK : InstallableRuntime := "openjdk"

def ubuntu1804 : String := "ubuntu1804"
def ubuntu2204 : String := "ubuntu2204"

/-- The map `runtimeNames`; a runtime that is not in it reads as the empty string. -/
def runtimeNames (runtime : InstallableRuntime) : String :=
  match [(Nodejs, "Node.js"), (PHP, "PHP Runtime"), (Python, "Python"), (Ruby, "Ruby Runtime"),
      (Nginx, "Nginx Web Server"), (Pid1, "Pid1"), (DotnetSDK, ".NET SDK")].lookup runtime with
  | some name => name
  | none => ""

/-- The map `stackToOS`. -/
def stackToOS : List (String × String) :=
  [("google", ubuntu1804), ("google.gae.18", ubuntu1804), ("google.22", ubuntu2204),
   ("google.gae.22", ubuntu2204), ("google.min.22", ubuntu2204)]

def versionKey : String := "version"
def stackKey : String := "stack"

/-- The function `OSForStack`. -/
def OSForStack (stackID : String) : String :=
  match stackToOS.lookup stackID with
  | some os => os
  | none => ""

/-- Modelled from the spec: `ctx.GetMetadata` (package gcpbuildpack) is not among the
sources. The metadata store is the key-value record of the data model, keyed by `version`
and `stack`; the value read is a Go `string`, which `IsCached` compares with `==`, so a key
that is not in the record reads as the empty string. -/
def GetMetadata (layer : Layer) (key : String) : String :=
  match layer.Metadata.lookup key with
  | some value => value
  | none => ""

/-- Modelled from the spec: `ctx.SetMetadata` (package gcpbuildpack) is not among the
sources. It stores `value` under `key` in the layer's record, in place of any earlier
value. -/
def SetMetadata (layer : Layer) (key value : String) : Layer :=
  { layer with Metadata := (key, value) :: layer.Metadata.filter (fun kv => kv.1 ≠ key) }

/-- The function `IsCached`. -/
def IsCached (env : Env) (layer : Layer) (version : String) : Bool :=
  let metaVersion := GetMetadata layer versionKey
  let metaStack := GetMetadata layer stackKey
  metaVersion == version && metaStack == env.StackID

/-- Modelled from the spec: `ctx.ClearLayer` (package gcpbuildpack) is not among the
sources. It clears the target directory completely, and clearing an empty directory is not
an error; it leaves the layer's metadata record alone. When it fails, the directory holds
whatever the failed removal left. -/
def ClearLayer (env : Env) (w : World) : Option String × World :=
  let w := w.emit (.ClearLayer w.layer.Name)
  match env.clearLayerFailure w.layer.Path w.files with
  | some (err, left) => (some err, { w with files := left })
  | none => (none, { w with files := [] })

/-- The call `ctx.Exec`: the command runs on the layer directory. -/
def Exec (env : Env) (cmd : List String) (w : World) : Option String × World :=
  let w := w.emit (.Exec cmd)
  ((env.Exec cmd w.files).1, { w with files := (env.Exec cmd w.files).2 })

/-- The format `dartSdkURL` applied to a version. -/
def dartSdkURL (version : String) : String :=
  "https://storage.googleapis.com/dart-archive/channels/stable/release/" ++ version ++
    "/sdk/dartsdk-linux-x64-release.zip"

/-- The format `googleTarballURL` applied to its three arguments; the second is used twice. -/
def googleTarballURL (os : String) (runtime : InstallableRuntime) (version : String) : String :=
  "https://dl.google.com/runtimes/" ++ os ++ "/" ++ runtime ++ "/" ++ runtime ++ "-" ++ version ++
    ".tar.gz"

/-- The format `runtimeVersionsURL` applied to its two arguments. -/
def runtimeVersionsURL (os : String) (runtime : InstallableRuntime) : String :=
  "https://dl.google.com/runtimes/" ++ os ++ "/" ++ runtime ++ "/version.json"

/-- The function `ResolveVersion` of package runtime. -/
def ResolveVersion (env : Env) (runtime : InstallableRuntime) (verConstraint os : String) :
    Except Error String :=
  if env.IsExactSemver verConstraint then
    .ok verConstraint
  else
    let url := runtimeVersionsURL os runtime
    match env.JSON url with
    | .error err =>
      .error (.InternalErrorf "fetching %s versions %s os: %v" [runtimeNames runtime, os, err])
    | .ok versions =>
      match env.versionResolveVersion verConstraint versions with
      | .error err =>
        .error (.UserErrorf "invalid %s version specified: %v" [runtimeNames runtime, err])
      | .ok v => .ok v

/-- Lines 171 to 190 of `InstallTarballIfNotCached`: clear the layer, fetch the tarball, and
only then write the metadata. -/
def installTarball (env : Env) (runtime : InstallableRuntime) (version os : String) (w : World) :
    (Bool × Option Error) × World :=
  match ClearLayer env w with
  | (some err, w) =>
    ((false, some (.InternalErrorf "clearing layer %q: %w" [w.layer.Name, err])), w)
  | (none, w) =>
    let w := w.emit (.Logf "Installing %s v%s." [runtimeNames runtime, version])
    let runtimeURL := googleTarballURL os runtime (replacePlus version)
    let stripComponents := if runtime = OpenJDK then 1 else 0
    let w := w.emit (.Tarball runtimeURL w.layer.Path stripComponents)
    match env.Tarball runtimeURL w.layer.Path stripComponents w.files with
    | (some err, left) =>
      ((false, some (.raw err)),
        ({ w with files := left }).emit
          (.Warnf ("Failed to download %s version %s os %s. You can specify the verison by " ++
            "setting the GOOGLE_RUNTIME_VERSION environment variable")
            [runtimeNames runtime, version, os]))
    | (none, files) =>
      let layer := SetMetadata (SetMetadata w.layer stackKey env.StackID) versionKey version
      ((false, none), { w with files := files, layer := layer })

/-- The operating system `InstallTarballIfNotCached` works with: the entry of `stackToOS`,
or Ubuntu 18.04 after a warning. -/
def osOrFallback (env : Env) (w : World) : String × World :=
  match stackToOS.lookup env.StackID with
  | some os => (os, w)
  | none =>
    (ubuntu1804, w.emit (.Warnf "unknown stack ID %q, falling back to Ubuntu 18.04" [env.StackID]))

/-- The function `InstallTarballIfNotCached`. The Boolean is "a cached layer is used". -/
def InstallTarballIfNotCached (env : Env) (runtime : InstallableRuntime)
    (versionConstraint : String) (w : World) : (Bool × Option Error) × World :=
  let runtimeName := runtimeNames runtime
  let runtimeID : String := runtime
  let (os, w) := osOrFallback env w
  match ResolveVersion env runtime versionConstraint os with
  | .error err => ((false, some err), w)
  | .ok version =>
    let w := w.emit (.AddBOMEntry runtimeID version true true)
    if w.layer.Cache then
      if IsCached env w.layer version then
        ((true, none),
          (w.emit (.CacheHit runtimeID)).emit
            (.Logf "%s v%s cache hit, skipping installation." [runtimeName, version]))
      else
        installTarball env runtime version os (w.emit (.CacheMiss runtimeID))
    else
      installTarball env runtime version os w

/-- Go `os.Remove` of `<layer>/<name>`: a file or an empty directory goes, anything else
stays (the error is not looked at by the caller). -/
def Remove (name : String) (files : Dir) : Dir :=
  match lookupEntry name files with
  | some (.file _) => eraseEntry name files
  | some (.dir []) => eraseEntry name files
  | _ => files

/-- Go `os.Rename` of `<layer>/dart-sdk/<name>` to `<layer>/<name>`. An existing directory
at the new path is refused, a directory does not replace a file, and a file replaces a
file. -/
def renameUp (name : String) (files : Dir) : Except String Dir :=
  match lookupEntry "dart-sdk" files with
  | some (.dir inner) =>
    match lookupEntry name inner with
    | none => .error "no such file or directory"
    | some node =>
      match lookupEntry name files, node with
      | some (.dir _), _ => .error "file exists"
      | some (.file _), .dir _ => .error "not a directory"
      | _, _ =>
        .ok (setEntry name node (setEntry "dart-sdk" (.dir (eraseEntry name inner)) files))
  | _ => .error "no such file or directory"

/-- Go `ioutil.ReadDir` of `<layer>/dart-sdk`. -/
def readDartSdk (files : Dir) : Except String Dir :=
  match lookupEntry "dart-sdk" files with
  | some (.dir inner) => .ok inner
  | some (.file _) => .error "not a directory"
  | none => .error "no such file or directory"

/-- The loop of `InstallDartSDK` over the entries read from `<layer>/dart-sdk`: each is
renamed one level up, and the first failing rename ends the call. -/
def moveUp (layerPath : String) : List (String × Node) → World → Option Error × World
  | [], w => (none, w)
  | file :: rest, w =>
    let op := Join [layerPath, "dart-sdk", file.1]
    let np := Join [layerPath, file.1]
    let w := w.emit (.Rename op np)
    match renameUp file.1 w.files with
    | .error err => (some (.raw err), w)
    | .ok files => moveUp layerPath rest { w with files := files }

/-- The part of `InstallDartSDK` that runs after the temporary file `zip` exists and its
removal has been deferred. -/
def installDartSDKBody (env : Env) (version zip : String) (w : World) : Option Error × World :=
  let sdkURL := dartSdkURL version
  let zipName := Join [w.layer.Path, zip]
  let w := w.emit (.GetURL sdkURL zipName)
  match env.GetURL sdkURL with
  | (some err, written) =>
    (some (.raw err),
      ({ w with files := setEntry zip (.file written) w.files }).emit
        (.Warnf ("Failed to download Dart SDK from %s. You can specify the verison by " ++
          "setting the GOOGLE_RUNTIME_VERSION environment variable") [sdkURL]))
  | (none, body) =>
    let w := { w with files := setEntry zip (.file body) w.files }
    match Exec env ["unzip", "-q", zipName, "-d", w.layer.Path] w with
    | (some err, w) => (some (.Errorf "extracting Dart SDK: %v" [err]), w)
    | (none, w) =>
      match readDartSdk w.files with
      | .error err => (some (.raw err), w)
      | .ok files =>
        match moveUp w.layer.Path files w with
        | (some err, w) => (some err, w)
        | (none, w) =>
          let layer := SetMetadata (SetMetadata w.layer stackKey env.StackID) versionKey version
          (none, { w with layer := layer })

/-- The name `ioutil.TempFile` gives a file for the pattern `dart-sdk-*.zip`. -/
def dartZipName (random : String) : String :=
  "dart-sdk-" ++ random ++ ".zip"

/-- The function `InstallDartSDK`. -/
def InstallDartSDK (env : Env) (version : String) (w : World) : Option Error × World :=
  match ClearLayer env w with
  | (some err, w) => (some (.Errorf "clearing layer %q: %w" [w.layer.Name, err]), w)
  | (none, w) =>
    let w := w.emit (.TempFile w.layer.Path "dart-sdk-*.zip")
    match env.TempFile w.layer.Path "dart-sdk-*.zip" with
    | .error err => (some (.raw err), w)
    | .ok random =>
      let zip := dartZipName random
      let w := { w with files := setEntry zip (.file "") w.files }
      let (result, w) := installDartSDKBody env version zip w
      -- the deferred `os.Remove(zip.Name())`
      let w := w.emit (.Remove (Join [w.layer.Path, zip]))
      (result, { w with files := Remove zip w.files })

/-- Lines 197 to 212 of `PinGemAndBundlerVersion`: the RubyGems version and whether
Bundler 1 is installed too, chosen by the prefix of the Ruby version. -/
def pinnedVersions (version : String) : String × Bool :=
  let rubygemsVersion := "3.3.15"
  let installBundler1 := false
  let (rubygemsVersion, installBundler1) :=
    if HasPrefix version "2." then ("3.1.2", true) else (rubygemsVersion, installBundler1)
  let (rubygemsVersion, installBundler1) :=
    if HasPrefix version "3.0" then ("3.2.26", true) else (rubygemsVersion, installBundler1)
  (rubygemsVersion, installBundler1)

/-- The bundler install command of `PinGemAndBundlerVersion`. -/
def bundlerCommand (gemPath : String) (installBundler1 : Bool) : List String :=
  let bundler1Version := "1.17.3"
  let bundler2Version := "2.1.4"
  let command := [gemPath, "install", "--no-document", "bundler:" ++ bundler2Version]
  if installBundler1 then command ++ ["bundler:" ++ bundler1Version] else command

/-- The function `PinGemAndBundlerVersion`. -/
def PinGemAndBundlerVersion (env : Env) (version : String) (w : World) : Option Error × World :=
  let bundler1Version := "1.17.3"
  let bundler2Version := "2.1.4"
  let (rubygemsVersion, installBundler1) := pinnedVersions version
  let rubyBinPath := Join [w.layer.Path, "bin"]
  let gemPath := Join [rubyBinPath, "gem"]
  let w := w.emit (.Logf "Installing RubyGems %s" [rubygemsVersion])
  match Exec env [gemPath, "update", "--no-document", "--system", rubygemsVersion] w with
  | (some err, w) => (some (.Errorf "updating rubygems %s, err: %v" [rubygemsVersion, err]), w)
  | (none, w) =>
    let command := ["rm", "-f", Join [rubyBinPath, "bundle"], Join [rubyBinPath, "bundler"]]
    match Exec env command w with
    | (some err, w) => (some (.Errorf "removing out-of-box bundler: %v" [err]), w)
    | (none, w) =>
      let command := bundlerCommand gemPath installBundler1
      let w :=
        if installBundler1 then
          w.emit (.Logf "Installing bundler %s and %s" [bundler1Version, bundler2Version])
        else
          w.emit (.Logf "Installing bundler %s " [bundler2Version])
      match Exec env command w with
      | (some err, w) =>
        (some (.Errorf "installing bundler %s and %s: %v" [bundler1Version, bundler2Version, err]),
          w)
      | (none, w) => (none, w)

/-! ## `pkg/nodejs/yarn.go` -/

/-- How a Go call ends: it returns its `error` result (`none` is `nil`), or it panics. -/
inductive Outcome where
  | returned (err : Option Error)
  | panicked (reason : String)
  deriving DecidableEq, Repr

/-- The format `yarnURL` applied to a version, which it uses twice. -/
def yarnURL (version : String) : String :=
  "https://yarnpkg.com/downloads/" ++ version ++ "/yarn-v" ++ version ++ ".tar.gz"

/-- The format `yarn2URL` applied to a version. -/
def yarn2URL (version : String) : String :=
  "https://repo.yarnpkg.com/" ++ version ++ "/packages/yarnpkg-cli/bin/yarn.js"

/-- The variable `version2`, `semver.MustParse("2.0.0")`. -/
def version2 : Version :=
  { major := 2, minor := 0, patch := 0, pre := "", metadata := "", original := "2.0.0" }

/-- The function `requestedYarnVersion`. -/
def requestedYarnVersion (env : Env) (applicationRoot : String) : Except String String :=
  match env.ReadPackageJSONIfExists applicationRoot with
  | .error err => .error err
  | .ok none => .ok ""
  | .ok (some pjs) => .ok pjs.enginesYarn

/-- The function `DetectYarnVersion`. -/
def DetectYarnVersion (env : Env) (applicationRoot : String) : Except Error String :=
  match requestedYarnVersion env applicationRoot with
  | .error err => .error (.raw err)
  | .ok requested =>
    if requested = "" then
      match env.latestPackageVersion "yarn" with
      | .error err => .error (.InternalErrorf "fetching available Yarn versions: %w" [err])
      | .ok version => .ok version
    else
      match env.resolvePackageVersion "yarn" requested with
      | .error err =>
        .error (.UserErrorf "finding Yarn version that matched %q: %w" [requested, err])
      | .ok version => .ok version

/-- Go `os.MkdirAll` of `<dir>/bin`, on the contents of `dir`. -/
def mkdirBin (env : Env) (path : String) (files : Dir) : Except String Dir :=
  match env.MkdirAll path with
  | some err => .error err
  | none =>
    match lookupEntry "bin" files with
    | some (.dir _) => .ok files
    | some (.file _) => .error "not a directory"
    | none => .ok (files ++ [("bin", .dir [])])

/-- Go `os.OpenFile` of `<dir>/bin/yarn` with `O_CREATE|O_RDWR`, on the contents of `dir`:
a missing file is created empty, an existing one is opened as it is. -/
def openYarn (env : Env) (path : String) (files : Dir) : Except String Dir :=
  match env.OpenFile path with
  | some err => .error err
  | none =>
    match lookupEntry "bin" files with
    | some (.dir bin) =>
      match lookupEntry "yarn" bin with
      | some (.dir _) => .error "is a directory"
      | some (.file _) => .ok files
      | none => .ok (setEntry "bin" (.dir (bin ++ [("yarn", .file "")])) files)
    | _ => .error "no such file or directory"

/-- Writing `body` from the start of a file that holds `old` and was opened without
truncation. -/
def overwrite (old body : String) : String :=
  String.mk (body.data ++ old.data.drop body.data.length)

/-- The write of the downloaded body into the open `<dir>/bin/yarn`. -/
def writeYarn (body : String) (files : Dir) : Dir :=
  match lookupEntry "bin" files with
  | some (.dir bin) =>
    match lookupEntry "yarn" bin with
    | some (.file old) =>
      setEntry "bin" (.dir (setEntry "yarn" (.file (overwrite old body)) bin)) files
    | _ => files
  | _ => files

/-- The function `InstallYarn`; `w.files` is the contents of `dir`. When the version does
not parse, the user error is built and dropped, and the call goes on to `v.LessThan` with
`v` nil. -/
def InstallYarn (env : Env) (dir version : String) (w : World) : Outcome × World :=
  let parsed := env.NewVersion version
  let _unused : Option Error :=
    match parsed with
    | .error err => some (.UserErrorf "parsing yarn version %q: %v" [version, err])
    | .ok _ => none
  match parsed with
  | .error _ => (.panicked "invalid memory address or nil pointer dereference", w)
  | .ok v =>
    if Version.LessThan env v version2 then
      let archiveURL := yarnURL version
      let stripComponents := 1
      let w := w.emit (.Tarball archiveURL dir stripComponents)
      match env.Tarball archiveURL dir stripComponents w.files with
      | (some err, left) => (.returned (some (.raw err)), { w with files := left })
      | (none, files) => (.returned none, { w with files := files })
    else
      let yarnPath := Join [dir, "bin", "yarn"]
      let w := w.emit (.MkdirAll (filepathDir yarnPath))
      match mkdirBin env (filepathDir yarnPath) w.files with
      | .error err =>
        (.returned (some (.InternalErrorf "creating directory %q: %v" [filepathDir yarnPath, err])),
          w)
      | .ok files =>
        let w := { w with files := files }
        let w := w.emit (.OpenFile yarnPath)
        match openYarn env yarnPath w.files with
        | .error err =>
          (.returned (some (.InternalErrorf "creating file %q: %v" [yarnPath, err])), w)
        | .ok files =>
          let w := { w with files := files }
          let binURL := yarn2URL version
          let w := w.emit (.GetURL binURL yarnPath)
          match env.GetURL binURL with
          | (some err, written) =>
            (.returned (some (.raw err)), { w with files := writeYarn written w.files })
          | (none, body) => (.returned none, { w with files := writeYarn body w.files })

/-- Lines 141 to 154 of `InstallYarnLayer`: store the metadata, put the layer's `bin` first
on `PATH`, add the bill-of-materials entry. -/
def storeYarnLayer (env : Env) (version : String) (w : World) : Outcome × World :=
  let w := { w with layer := SetMetadata w.layer versionKey version }
  let value := Join [w.layer.Path, "bin"] ++ ":" ++ w.PATH
  let w := w.emit (.Setenv "PATH" value)
  match env.Setenv "PATH" value with
  | some err => (.returned (some (.raw err)), w)
  | none =>
    let w := { w with PATH := value }
    (.returned none, w.emit (.AddBOMEntry w.layer.Name version w.layer.Launch w.layer.Build))

/-- Lines 124 to 139 of `InstallYarnLayer`: the cache check and, on a miss, the install. -/
def yarnLayerStep (env : Env) (version : String) (w : World) : Outcome × World :=
  let layerName := w.layer.Name
  let metaVersion := GetMetadata w.layer versionKey
  if version = metaVersion then
    (.returned none,
      (w.emit (.CacheHit layerName)).emit (.Logf "Yarn cache hit, skipping installation." []))
  else
    let w := w.emit (.CacheMiss layerName)
    match ClearLayer env w with
    | (some err, w) =>
      (.returned (some (.Errorf "clearing layer %q: %w" [layerName, err])), w)
    | (none, w) =>
      let w := w.emit (.Logf "Installing Yarn v%s" [version])
      InstallYarn env w.layer.Path version w

/-- The function `InstallYarnLayer`. -/
def InstallYarnLayer (env : Env) (w : World) : Outcome × World :=
  match DetectYarnVersion env env.ApplicationRoot with
  | .error err => (.returned (some err), w)
  | .ok version =>
    match yarnLayerStep env version w with
    | (.returned none, w) => storeYarnLayer env version w
    | (ended, w) => (ended, w)

/-! ## A sample environment for the worked examples -/

/-- The value of a decimal digit. -/
def digitValue (c : Char) : Option Nat :=
  if c.isDigit then some (c.toNat - 48) else none

/-- A non-empty run of decimal digits as a number. -/
def readNat (cs : List Char) : Option Nat :=
  if cs = [] then none
  else cs.foldl (fun acc c => acc.bind fun n => (digitValue c).map fun d => 10 * n + d) (some 0)

/-- Split at every dot. -/
def splitDots : List Char → List (List Char)
  | [] => [[]]
  | c :: cs =>
    match splitDots cs with
    | [] => [[c]]
    | seg :: rest => if c = '.' then [] :: seg :: rest else (c :: seg) :: rest

/-- Cut at the first `sep`: what is before it, and what is after it if it occurs. -/
def cutAt (sep : Char) : List Char → List Char × Option (List Char)
  | [] => ([], none)
  | c :: cs =>
    if c = sep then ([], some cs)
    else ((c :: (cutAt sep cs).1), (cutAt sep cs).2)

/-- A stand-in for the library parser: an optional `v`, one to three dotted numbers, an
optional `-pre` and an optional `+metadata`. -/
def sampleNewVersion (s : String) : Except String Version :=
  let cs := match s.data with
    | 'v' :: rest => rest
    | cs => cs
  let (front, metadata) := cutAt '+' cs
  let (core, pre) := cutAt '-' front
  if metadata = some [] ∨ pre = some [] then .error "Invalid Semantic Version"
  else
    let tag (o : Option (List Char)) : String := String.mk (o.getD [])
    match (splitDots core).map readNat with
    | [some a] => .ok ⟨a, 0, 0, tag pre, tag metadata, s⟩
    | [some a, some b] => .ok ⟨a, b, 0, tag pre, tag metadata, s⟩
    | [some a, some b, some c] => .ok ⟨a, b, c, tag pre, tag metadata, s⟩
    | _ => .error "Invalid Semantic Version"

/-- A stand-in for `version.IsExactSemver`: exactly three dotted numbers, no leading `v`. -/
def sampleIsExactSemver (s : String) : Bool :=
  match sampleNewVersion s with
  | .ok _ => s.data.head? ≠ some 'v' ∧ ((splitDots (cutAt '-' (cutAt '+' s.data).1).1).length = 3)
  | .error _ => false

/-- An environment in which the network is down: every fetch fails before it has written
anything, everything local succeeds, no `package.json` is present and the registry cannot
be reached either. -/
def offline : Env where
  StackID := "google.22"
  ApplicationRoot := "/workspace"
  IsExactSemver := sampleIsExactSemver
  versionResolveVersion := fun _ _ => .error "no matching version"
  JSON := fun _ => .error "dial tcp: connection refused"
  Tarball := fun _ _ _ files => (some "dial tcp: connection refused", files)
  GetURL := fun _ => (some "dial tcp: connection refused", "")
  clearLayerFailure := fun _ _ => none
  Exec := fun _ files => (none, files)
  TempFile := fun _ _ => .ok "123456789"
  MkdirAll := fun _ => none
  OpenFile := fun _ => none
  Setenv := fun _ _ => none
  NewVersion := sampleNewVersion
  comparePrerelease := fun _ _ => 0
  ReadPackageJSONIfExists := fun _ => .ok none
  latestPackageVersion := fun _ => .error "dial tcp: connection refused"
  resolvePackageVersion := fun _ _ => .error "dial tcp: connection refused"

/-- A stand-in for `version.ResolveVersion` that knows the three constraints of the
end-to-end example of the specification. -/
def sampleResolve (constraint : String) (versions : List String) : Except String String :=
  if constraint = "" ∧ "2.0.0" ∈ versions then .ok "2.0.0"
  else if constraint = "^1.0.0" ∧ "1.2.0" ∈ versions then .ok "1.2.0"
  else .error "failed to resolve version"

/-- A stand-in for `unzip`: the archive unpacks to `dart-sdk/bin` and `dart-sdk/lib`; any
other command leaves the directory alone. -/
def sampleExec (cmd : List String) (files : Dir) : Option String × Dir :=
  if cmd.head? = some "unzip" then
    (none, files ++ [("dart-sdk", .dir [("bin", .dir [("dart", .file "elf")]), ("lib", .dir [])])])
  else (none, files)

/-- An environment in which the network answers: the catalogue lists three versions, a
tarball unpacks to `bin/run`, a download has the body `payload`, and the registry names
`latest` as the newest Yarn. -/
def online (latest : String) : Env :=
  { offline with
    versionResolveVersion := sampleResolve
    JSON := fun _ => .ok ["1.0.0", "1.2.0", "2.0.0"]
    Tarball := fun _ _ _ files => (none, files ++ [("bin", .dir [("run", .file "elf")])])
    GetURL := fun _ => (none, "payload")
    Exec := sampleExec
    latestPackageVersion := fun _ => .ok latest }

/-- A layer that holds an earlier install, version 1.0.0 for the stack `google.22`. -/
def installed : World :=
  { layer :=
      { Name := "runtime", Path := "/layers/runtime", Cache := true, Launch := true,
        Build := true, Metadata := [("version", "1.0.0"), ("stack", "google.22")] }
    files := [("bin", .dir [("run", .file "elf")])]
    PATH := "/usr/bin"
    log := [] }

/-- A fresh layer: no metadata, an empty directory. -/
def fresh : World :=
  { layer :=
      { Name := "runtime", Path := "/layers/runtime", Cache := true, Launch := true,
        Build := true, Metadata := [] }
    files := []
    PATH := "/usr/bin"
    log := [] }

/-- The registry answers, naming `latest` as the newest Yarn, but every download fails. -/
def downloadFails (latest : String) : Env :=
  { offline with latestPackageVersion := fun _ => .ok latest }

/-- An archive that also holds, under `dart-sdk`, a file named like the temporary archive
that `offline.TempFile` names. -/
def clashingExec (cmd : List String) (files : Dir) : Option String × Dir :=
  if cmd.head? = some "unzip" then
    (none, files ++ [("dart-sdk", .dir [("bin", .dir []), ("dart-sdk-123456789.zip", .file "x")])])
  else (none, files)

/-- The registry answers, naming `latest` as the newest Yarn, but every download breaks off
part-way: a tarball has unpacked `bin` and nothing below it, a file has received `pay`. -/
def interrupted (latest : String) : Env :=
  { offline with
    latestPackageVersion := fun _ => .ok latest
    Tarball := fun _ _ _ files => (some "unexpected EOF", files ++ [("bin", .dir [])])
    GetURL := fun _ => (some "unexpected EOF", "pay") }

/-- Everything answers, but the `PATH` variable cannot be set. -/
def pathUpdateFails (latest : String) : Env :=
  { online latest with Setenv := fun _ _ => some "setenv: invalid argument" }

/-- A Yarn layer stored with version 1.22.19 under the stack `google`. -/
def yarnFromOtherStack : World :=
  { layer :=
      { Name := "yarn", Path := "/layers/yarn", Cache := true, Launch := true, Build := true,
        Metadata := [("version", "1.22.19"), ("stack", "google")] }
    files := [("bin", .dir [("yarn", .file "js")])]
    PATH := "/usr/bin"
    log := [] }

/-- The calls made between the state `w` and the later state `w'`. -/
def World.since (w' w : World) : List Event :=
  w'.log.drop w.log.length

/-- The commands handed to `ctx.Exec` among a sequence of calls, in order. -/
def execCommands (log : List Event) : List (List String) :=
  log.filterMap fun e =>
    match e with
    | .Exec cmd => some cmd
    | _ => none

/-! ## Bookkeeping lemmas -/

@[simp] theorem emit_layer (w : World) (e : Event) : (w.emit e).layer = w.layer := rfl

@[simp] theorem emit_files (w : World) (e : Event) : (w.emit e).files = w.files := rfl

@[simp] theorem emit_PATH (w : World) (e : Event) : (w.emit e).PATH = w.PATH := rfl

@[simp] theorem emit_log (w : World) (e : Event) : (w.emit e).log = w.log ++ [e] := rfl

@[simp] theorem osOrFallback_layer (env : Env) (w : World) :
    (osOrFallback env w).2.layer = w.layer := by
  unfold osOrFallback; split <;> rfl

@[simp] theorem osOrFallback_files (env : Env) (w : World) :
    (osOrFallback env w).2.files = w.files := by
  unfold osOrFallback; split <;> rfl

/-- The only call `osOrFallback` may add is a warning. -/
theorem osOrFallback_log (env : Env) (w : World) :
    (osOrFallback env w).2.log = w.log ∨
      (osOrFallback env w).2.log =
        w.log ++ [.Warnf "unknown stack ID %q, falling back to Ubuntu 18.04" [env.StackID]] := by
  unfold osOrFallback; split
  · exact Or.inl rfl
  · exact Or.inr rfl

theorem since_append (w' w : World) (new : List Event) (h : w'.log = w.log ++ new) :
    World.since w' w = new := by
  simp [World.since, h]

@[simp] theorem ClearLayer_layer (env : Env) (w : World) : (ClearLayer env w).2.layer = w.layer := by
  simp only [ClearLayer, emit_layer, emit_files]
  rcases env.clearLayerFailure w.layer.Path w.files with _ | ⟨err, left⟩ <;> rfl

@[simp] theorem ClearLayer_log (env : Env) (w : World) :
    (ClearLayer env w).2.log = w.log ++ [.ClearLayer w.layer.Name] := by
  simp only [ClearLayer, emit_layer, emit_files]
  rcases env.clearLayerFailure w.layer.Path w.files with _ | ⟨err, left⟩ <;> rfl

/-- The tarball install never reports a cached layer. -/
theorem installTarball_not_cached (env : Env) (runtime : InstallableRuntime) (version os : String)
    (w : World) : (installTarball env runtime version os w).1.1 = false := by
  unfold installTarball
  split
  · rfl
  · dsimp only
    split <;> rfl

/-! ## Effects on the layer record -/

@[simp] theorem Exec_layer (env : Env) (cmd : List String) (w : World) :
    (Exec env cmd w).2.layer = w.layer := rfl

theorem moveUp_layer (layerPath : String) (l : List (String × Node)) :
    ∀ w : World, (moveUp layerPath l w).2.layer = w.layer := by
  induction l with
  | nil => intro w; rfl
  | cons file rest ih =>
    intro w
    unfold moveUp
    dsimp only
    split
    · rfl
    · rw [ih]; rfl

/-- The tarball install writes metadata only when it succeeds. -/
theorem installTarball_error_layer (env : Env) (runtime : InstallableRuntime) (version os : String)
    (w : World) (h : (installTarball env runtime version os w).1.2 ≠ none) :
    (installTarball env runtime version os w).2.layer = w.layer := by
  unfold installTarball at h ⊢
  split
  · rename_i err w1 heq
    have := congrArg (fun r => r.2.layer) heq
    simpa using this.symm
  · rename_i w1 heq
    have hl : w1.layer = w.layer := by
      have := congrArg (fun r => r.2.layer) heq
      simpa using this.symm
    rw [heq] at h
    dsimp only at h ⊢
    split
    · simpa using hl
    · rename_i files ht
      rw [ht] at h
      simp at h

/-- The body of the Dart install writes metadata only when it succeeds. -/
theorem installDartSDKBody_error_layer (env : Env) (version zip : String) (w : World)
    (h : (installDartSDKBody env version zip w).1 ≠ none) :
    (installDartSDKBody env version zip w).2.layer = w.layer := by
  unfold installDartSDKBody at h ⊢
  dsimp only at h ⊢
  rcases hg : env.GetURL (dartSdkURL version) with ⟨ge, body⟩
  rw [hg] at h
  cases ge with
  | some err => rfl
  | none =>
    simp only [] at h ⊢
    generalize hx : Exec env _ _ = x at h ⊢
    obtain ⟨e, w1⟩ := x
    have hl : w1.layer = w.layer := by
      have := congrArg (fun r => r.2.layer) hx
      simpa using this.symm
    cases e with
    | some err => exact hl
    | none =>
      dsimp only at h ⊢
      cases hr : readDartSdk w1.files with
      | error err => exact hl
      | ok files =>
        simp only [hr] at h ⊢
        generalize hm : moveUp w1.layer.Path files w1 = m at h ⊢
        obtain ⟨e2, w2⟩ := m
        have hl2 : w2.layer = w1.layer := by
          have := moveUp_layer w1.layer.Path files w1
          rw [hm] at this
          exact this
        cases e2 with
        | some err => exact hl2.trans hl
        | none => simp at h

theorem InstallYarn_layer (env : Env) (dir version : String) (w : World) :
    (InstallYarn env dir version w).2.layer = w.layer := by
  unfold InstallYarn
  dsimp only
  repeat' split
  all_goals rfl

/-- `InstallYarn` only adds calls to the log, and none of them is a cache event. -/
theorem InstallYarn_log (env : Env) (dir version : String) (w : World) :
    ∃ new, (InstallYarn env dir version w).2.log = w.log ++ new := by
  unfold InstallYarn
  dsimp only
  repeat' split
  all_goals simp

theorem yarnLayerStep_layer (env : Env) (version : String) (w : World) :
    (yarnLayerStep env version w).2.layer = w.layer := by
  unfold yarnLayerStep
  dsimp only
  split
  · rfl
  · split
    · rename_i err w1 heq
      have := congrArg (fun r => r.2.layer) heq
      simpa using this.symm
    · rename_i w1 heq
      have := congrArg (fun r => r.2.layer) heq
      rw [InstallYarn_layer]
      simpa using this.symm

theorem storeYarnLayer_log (env : Env) (version : String) (w : World) :
    ∃ new, (storeYarnLayer env version w).2.log = w.log ++ new := by
  unfold storeYarnLayer
  dsimp only
  split <;> simp

theorem storeYarnLayer_files (env : Env) (version : String) (w : World) :
    (storeYarnLayer env version w).2.files = w.files := by
  unfold storeYarnLayer
  dsimp only
  split <;> rfl

theorem storeYarnLayer_layer (env : Env) (version : String) (w : World) :
    (storeYarnLayer env version w).2.layer = SetMetadata w.layer versionKey version := by
  unfold storeYarnLayer
  dsimp only
  split <;> rfl

/-- On a miss the first two calls of the cache step are `CacheMiss` and `ClearLayer`. -/
theorem yarnLayerStep_miss_log (env : Env) (version : String) (w : World)
    (h : version ≠ GetMetadata w.layer versionKey) :
    ∃ rest, (yarnLayerStep env version w).2.log =
      w.log ++ .CacheMiss w.layer.Name :: .ClearLayer w.layer.Name :: rest := by
  unfold yarnLayerStep
  dsimp only
  rw [if_neg h]
  generalize hc : ClearLayer env (w.emit (.CacheMiss w.layer.Name)) = c
  obtain ⟨e, w1⟩ := c
  have hl : w1.log = w.log ++ [.CacheMiss w.layer.Name, .ClearLayer w.layer.Name] := by
    have := ClearLayer_log env (w.emit (.CacheMiss w.layer.Name))
    rw [hc] at this
    simpa using this
  cases e with
  | some err => exact ⟨[], by simpa using hl⟩
  | none =>
    dsimp only
    obtain ⟨new, hn⟩ := InstallYarn_log env
      (w1.emit (.Logf "Installing Yarn v%s" [version])).layer.Path version
      (w1.emit (.Logf "Installing Yarn v%s" [version]))
    exact ⟨.Logf "Installing Yarn v%s" [version] :: new, by
      rw [hn]; simp [hl]⟩

/-- What `InstallYarnLayer` adds to the log comes after what the cache step added. -/
theorem InstallYarnLayer_log (env : Env) (version : String) (w : World)
    (hd : DetectYarnVersion env env.ApplicationRoot = .ok version) :
    ∃ new, (InstallYarnLayer env w).2.log = (yarnLayerStep env version w).2.log ++ new := by
  unfold InstallYarnLayer
  rw [hd]
  dsimp only
  generalize yarnLayerStep env version w = st
  obtain ⟨o, w1⟩ := st
  cases o with
  | panicked r => exact ⟨[], by simp⟩
  | returned e =>
    cases e with
    | some err => exact ⟨[], by simp⟩
    | none => exact storeYarnLayer_log env version w1

/-- The tarball install starts by clearing the layer and, once that has succeeded, calls
`fetch.Tarball`. -/
theorem installTarball_log (env : Env) (runtime : InstallableRuntime) (version os : String)
    (w : World) :
    ∃ rest, (installTarball env runtime version os w).2.log =
        w.log ++ .ClearLayer w.layer.Name :: rest ∧
      (env.clearLayerFailure w.layer.Path w.files = none →
        Event.Tarball (googleTarballURL os runtime (replacePlus version)) w.layer.Path
          (if runtime = OpenJDK then 1 else 0) ∈ rest) := by
  rcases hc : env.clearLayerFailure w.layer.Path w.files with _ | ⟨e, left⟩
  · rcases ht : env.Tarball (googleTarballURL os runtime (replacePlus version)) w.layer.Path
      (if runtime = OpenJDK then 1 else 0) [] with ⟨te, tf⟩
    cases te with
    | some err =>
      exact ⟨[.Logf "Installing %s v%s." [runtimeNames runtime, version],
        .Tarball (googleTarballURL os runtime (replacePlus version)) w.layer.Path
          (if runtime = OpenJDK then 1 else 0),
        .Warnf ("Failed to download %s version %s os %s. You can specify the verison by " ++
          "setting the GOOGLE_RUNTIME_VERSION environment variable")
          [runtimeNames runtime, version, os]],
        by simp [installTarball, ClearLayer, hc, ht], fun _ => by simp⟩
    | none =>
      exact ⟨[.Logf "Installing %s v%s." [runtimeNames runtime, version],
        .Tarball (googleTarballURL os runtime (replacePlus version)) w.layer.Path
          (if runtime = OpenJDK then 1 else 0)],
        by simp [installTarball, ClearLayer, hc, ht], fun _ => by simp⟩
  · exact ⟨[], by simp [installTarball, ClearLayer, hc], fun h => by simp at h⟩

/-- The same, seen from a state `w` before the calls that led to the install. -/
theorem installTarball_since (env : Env) (runtime : InstallableRuntime) (version os : String)
    (w W : World) (pre : List Event) (hl : W.layer = w.layer) (hf : W.files = w.files)
    (hlog : W.log = w.log ++ pre) :
    Event.ClearLayer w.layer.Name ∈ World.since (installTarball env runtime version os W).2 w ∧
      (env.clearLayerFailure w.layer.Path w.files = none →
        Event.Tarball (googleTarballURL os runtime (replacePlus version)) w.layer.Path
          (if runtime = OpenJDK then 1 else 0) ∈
            World.since (installTarball env runtime version os W).2 w) := by
  obtain ⟨rest, hrest, htar⟩ := installTarball_log env runtime version os W
  rw [hl, hf] at htar
  rw [hl] at hrest
  rw [since_append _ w (pre ++ .ClearLayer w.layer.Name :: rest) (by rw [hrest, hlog]; simp)]
  exact ⟨by simp, fun h => by simp [htar h]⟩

/-! ## Directory lemmas -/

theorem lookupEntry_nil (m : String) : lookupEntry m [] = none := rfl

theorem lookupEntry_cons (m : String) (e : String × Node) (d : Dir) :
    lookupEntry m (e :: d) = if m = e.1 then some e.2 else lookupEntry m d := by
  obtain ⟨k, x⟩ := e
  by_cases h : m = k
  · subst h
    simp [lookupEntry, List.lookup]
  · have hb : (m == k) = false := by simpa using h
    simp [lookupEntry, List.lookup, hb, h]

theorem lookupEntry_setEntry_self (n : String) (x : Node) (d : Dir) :
    lookupEntry n (setEntry n x d) = some x := by
  induction d with
  | nil => simp [setEntry, lookupEntry_cons]
  | cons e d ih =>
    by_cases h : e.1 = n
    · simp [setEntry, h, lookupEntry_cons]
    · have h2 : ¬ n = e.1 := fun hh => h hh.symm
      simp [setEntry, h, lookupEntry_cons, h2, ih]

theorem lookupEntry_setEntry_ne (m n : String) (x : Node) (d : Dir) (hmn : m ≠ n) :
    lookupEntry m (setEntry n x d) = lookupEntry m d := by
  induction d with
  | nil => simp [setEntry, lookupEntry_cons, hmn, lookupEntry_nil]
  | cons e d ih =>
    by_cases h : e.1 = n
    · have h2 : ¬ m = e.1 := fun hh => hmn (hh.trans h)
      simp [setEntry, h, lookupEntry_cons, hmn, h2]
    · simp [setEntry, h, lookupEntry_cons, ih]

theorem lookupEntry_eraseEntry_self (n : String) (d : Dir) :
    lookupEntry n (eraseEntry n d) = none := by
  induction d with
  | nil => rfl
  | cons e d ih =>
    by_cases h : e.1 = n
    · simpa [eraseEntry, h] using ih
    · have h2 : ¬ n = e.1 := fun hh => h hh.symm
      simpa [eraseEntry, h, lookupEntry_cons, h2] using ih

theorem lookupEntry_eraseEntry_ne (m n : String) (d : Dir) (hmn : m ≠ n) :
    lookupEntry m (eraseEntry n d) = lookupEntry m d := by
  induction d with
  | nil => rfl
  | cons e d ih =>
    by_cases h : e.1 = n
    · have h2 : ¬ m = e.1 := fun hh => hmn (hh.trans h)
      rw [lookupEntry_cons, if_neg h2, ← ih]
      simp [eraseEntry, h]
    · by_cases h3 : m = e.1
      · simp [eraseEntry, h, lookupEntry_cons, h3]
      · simpa [eraseEntry, h, lookupEntry_cons, h3] using ih

theorem lookupEntry_append_new (m : String) (x : Node) (d : Dir) (h : lookupEntry m d = none) :
    lookupEntry m (d ++ [(m, x)]) = some x := by
  induction d with
  | nil => simp [lookupEntry_cons]
  | cons e d ih =>
    rw [lookupEntry_cons] at h
    by_cases h3 : m = e.1
    · simp [h3] at h
    · simp only [h3, if_false] at h
      simp [lookupEntry_cons, h3, ih h]

theorem overwrite_empty (body : String) : overwrite "" body = body := by
  simp [overwrite]

/-- In a listing without repeated names, every entry is the one found under its name. -/
theorem lookupEntry_of_mem (d : Dir) (hd : (d.map Prod.fst).Nodup) (name : String) (node : Node)
    (h : (name, node) ∈ d) : lookupEntry name d = some node := by
  induction d with
  | nil => simp at h
  | cons e d ih =>
    rw [List.map_cons, List.nodup_cons] at hd
    rw [lookupEntry_cons]
    rcases List.mem_cons.mp h with h1 | h1
    · subst h1
      simp
    · have hne : name ≠ e.1 := by
        intro hh
        exact hd.1 (hh ▸ List.mem_map_of_mem Prod.fst h1)
      rw [if_neg hne]
      exact ih hd.2 h1

theorem lookupEntry_Remove_ne (m zip : String) (d : Dir) (h : m ≠ zip) :
    lookupEntry m (Remove zip d) = lookupEntry m d := by
  unfold Remove
  split
  · exact lookupEntry_eraseEntry_ne m zip d h
  · exact lookupEntry_eraseEntry_ne m zip d h
  · rfl

theorem dartZipName_ne (random : String) : dartZipName random ≠ "dart-sdk" := by
  intro h
  have := congrArg String.length h
  simp only [dartZipName, String.length_append] at this
  have h1 : "dart-sdk-".length = 9 := by decide
  have h2 : "dart-sdk".length = 8 := by decide
  omega

theorem readDartSdk_ok (files inner : Dir) (h : readDartSdk files = .ok inner) :
    lookupEntry "dart-sdk" files = some (.dir inner) := by
  unfold readDartSdk at h
  split at h
  · rename_i x hx
    injection h with h
    subst h
    exact hx
  · simp at h
  · simp at h

/-- What one successful rename does. -/
theorem renameUp_ok (name : String) (files files1 cur : Dir)
    (hcur : lookupEntry "dart-sdk" files = some (.dir cur))
    (h : renameUp name files = .ok files1) :
    name ≠ "dart-sdk" ∧
      (∃ node, lookupEntry name cur = some node ∧ lookupEntry name files1 = some node) ∧
      lookupEntry "dart-sdk" files1 = some (.dir (eraseEntry name cur)) ∧
      ∀ m, m ≠ name → m ≠ "dart-sdk" → lookupEntry m files1 = lookupEntry m files := by
  unfold renameUp at h
  rw [hcur] at h
  dsimp only at h
  cases hn : lookupEntry name cur with
  | none => simp [hn] at h
  | some node =>
    simp only [hn] at h
    have hne : name ≠ "dart-sdk" := by
      intro hh
      subst hh
      rw [hcur] at h
      simp at h
    have hres : files1 =
        setEntry name node (setEntry "dart-sdk" (.dir (eraseEntry name cur)) files) := by
      split at h
      · simp at h
      · simp at h
      · injection h with h
        exact h.symm
    subst hres
    refine ⟨hne, ⟨node, rfl, lookupEntry_setEntry_self _ _ _⟩, ?_, ?_⟩
    · rw [lookupEntry_setEntry_ne _ _ _ _ (Ne.symm hne), lookupEntry_setEntry_self]
    · intro m h1 h2
      rw [lookupEntry_setEntry_ne _ _ _ _ h1, lookupEntry_setEntry_ne _ _ _ _ h2]

/-- What a successful run of the loop does: the names it moved were distinct entries of
`dart-sdk`, each is now directly under the layer, and `dart-sdk` has lost exactly them. -/
theorem moveUp_ok (layerPath : String) :
    ∀ (rest : List (String × Node)) (w w' : World) (cur : Dir),
      lookupEntry "dart-sdk" w.files = some (.dir cur) →
      moveUp layerPath rest w = (none, w') →
        (rest.map Prod.fst).Nodup ∧
        (∀ n ∈ rest.map Prod.fst,
          (lookupEntry n cur).isSome ∧ lookupEntry n w'.files = lookupEntry n cur) ∧
        lookupEntry "dart-sdk" w'.files =
          some (.dir (cur.filter (fun e => decide (e.1 ∉ rest.map Prod.fst)))) ∧
        (∀ m, m ∉ rest.map Prod.fst → m ≠ "dart-sdk" →
          lookupEntry m w'.files = lookupEntry m w.files) ∧
        w'.layer = w.layer := by
  intro rest
  induction rest with
  | nil =>
    intro w w' cur hcur h
    simp only [moveUp] at h
    injection h with _ h
    subst h
    simp [hcur]
  | cons file rest ih =>
    intro w w' cur hcur h
    unfold moveUp at h
    simp only [emit_files, emit_layer, emit_PATH, emit_log] at h
    cases hr : renameUp file.1 w.files with
    | error err => simp [hr] at h
    | ok files1 =>
      simp only [hr] at h
      obtain ⟨hne, ⟨node, hnode, hnode1⟩, hsdk, hother⟩ :=
        renameUp_ok file.1 w.files files1 cur hcur hr
      obtain ⟨hnd, hmoved, hleft, hrest, hlayer⟩ := ih _ w' (eraseEntry file.1 cur) hsdk h
      have hnotin : file.1 ∉ rest.map Prod.fst := by
        intro hin
        have := (hmoved _ hin).1
        rw [lookupEntry_eraseEntry_self] at this
        simp at this
      refine ⟨?_, ?_, ?_, ?_, ?_⟩
      · rw [List.map_cons, List.nodup_cons]
        exact ⟨hnotin, hnd⟩
      · intro n hn
        rw [List.map_cons, List.mem_cons] at hn
        rcases hn with hn | hn
        · subst hn
          refine ⟨by simp [hnode], ?_⟩
          rw [hrest _ hnotin hne]
          exact hnode1.trans hnode.symm
        · have hnf : n ≠ file.1 := fun hh => hnotin (hh ▸ hn)
          have := hmoved n hn
          rw [lookupEntry_eraseEntry_ne _ _ _ hnf] at this
          exact this
      · rw [hleft]
        simp only [eraseEntry, List.filter_filter, List.map_cons, List.mem_cons]
        congr 2
        apply List.filter_congr
        intro e _
        by_cases h1 : e.1 = file.1 <;> by_cases h2 : e.1 ∈ rest.map Prod.fst <;> simp [h1, h2]
      · intro m hm hm2
        rw [List.map_cons, List.mem_cons, not_or] at hm
        rw [hrest m hm.2 hm2]
        exact hother m hm.1 hm2
      · exact hlayer

/-- Below 2.0.0 means: major below 2, or 2.0.0 with a pre-release tag. -/
theorem LessThan_version2 (env : Env) (v : Version) :
    Version.LessThan env v version2 = true ↔
      v.major < 2 ∨ (v.major = 2 ∧ v.minor = 0 ∧ v.patch = 0 ∧ v.pre ≠ "") := by
  simp only [Version.LessThan, Version.Compare, version2, decide_eq_true_eq]
  by_cases h1 : v.major = 2
  · by_cases h2 : v.minor = 0
    · by_cases h3 : v.patch = 0
      · by_cases hp : v.pre = "" <;> simp [h1, h2, h3, hp, compareSegment]
      · simp [h1, h2, h3, compareSegment, Nat.pos_of_ne_zero h3]
    · simp [h1, h2, compareSegment, Nat.pos_of_ne_zero h2]
  · by_cases hlt : v.major < 2
    · simp [compareSegment, hlt]
    · have hgt : 2 < v.major := by omega
      simp [compareSegment, hlt, hgt, h1]

/-- After a successful `MkdirAll` the directory `bin` is there. -/
theorem mkdirBin_ok (env : Env) (path : String) (files files1 : Dir)
    (h : mkdirBin env path files = .ok files1) :
    ∃ bin, lookupEntry "bin" files1 = some (.dir bin) ∧
      (files = [] → files1 = [("bin", .dir [])]) := by
  unfold mkdirBin at h
  cases hm : env.MkdirAll path with
  | some err => simp [hm] at h
  | none =>
    simp only [hm] at h
    split at h
    · rename_i b hb
      injection h with h
      subst h
      exact ⟨b, hb, fun hf => by simp [hf, lookupEntry_nil] at hb⟩
    · simp at h
    · rename_i hb
      injection h with h
      subst h
      exact ⟨[], lookupEntry_append_new "bin" _ files hb, fun hf => by simp [hf]⟩

/-- After a successful `OpenFile` the file `bin/yarn` is there. -/
theorem openYarn_ok (env : Env) (path : String) (files1 files2 : Dir)
    (h : openYarn env path files1 = .ok files2) :
    ∃ bin old, lookupEntry "bin" files2 = some (.dir bin) ∧
      lookupEntry "yarn" bin = some (.file old) ∧
      (files1 = [("bin", .dir [])] → files2 = [("bin", .dir [("yarn", .file "")])]) := by
  unfold openYarn at h
  cases ho : env.OpenFile path with
  | some err => simp [ho] at h
  | none =>
    simp only [ho] at h
    split at h
    · rename_i bin hb
      split at h
      · simp at h
      · rename_i old hy
        injection h with h
        subst h
        exact ⟨bin, old, hb, hy, fun hf => by
          subst hf
          simp [lookupEntry_cons] at hb
          subst hb
          simp [lookupEntry_nil] at hy⟩
      · rename_i hy
        injection h with h
        subst h
        refine ⟨bin ++ [("yarn", .file "")], "", lookupEntry_setEntry_self _ _ _,
          lookupEntry_append_new "yarn" _ bin hy, fun hf => ?_⟩
        subst hf
        simp [lookupEntry_cons] at hb
        subst hb
        simp [setEntry]
    · simp at h

/-- The write puts the body at the start of `bin/yarn`. -/
theorem writeYarn_ok (body : String) (files2 bin : Dir) (old : String)
    (hb : lookupEntry "bin" files2 = some (.dir bin))
    (hy : lookupEntry "yarn" bin = some (.file old)) :
    ∃ bin1, lookupEntry "bin" (writeYarn body files2) = some (.dir bin1) ∧
      lookupEntry "yarn" bin1 = some (.file (overwrite old body)) := by
  refine ⟨setEntry "yarn" (.file (overwrite old body)) bin, ?_, lookupEntry_setEntry_self _ _ _⟩
  simp [writeYarn, hb, hy, lookupEntry_setEntry_self]

/-! ## Claims -/

/-- C1 (counterexample): a record with no `version` key is reported as cached when the
requested version is the empty string, because the missing key reads as the empty string. -/
theorem IsCached_true_without_version_key :
    List.lookup versionKey [("stack", "google.22")] = none ∧
      IsCached offline
        { Name := "runtime", Path := "/layers/runtime", Cache := true, Launch := true,
          Build := true, Metadata := [("stack", "google.22")] } "" = true := by
  decide

/-- C1 (amended): `IsCached` is true exactly when the `version` key reads as the requested
version and the `stack` key reads as the current stack id, a key that is absent reading as
the empty string. So for a non-empty version and a non-empty stack id it is true exactly
when both keys are present with those values, and an absent key gives false as soon as the
string it is compared with is not empty. -/
theorem IsCached_iff (env : Env) (layer : Layer) (version : String) :
    (IsCached env layer version = true ↔
      GetMetadata layer versionKey = version ∧ GetMetadata layer stackKey = env.StackID) ∧
    (version ≠ "" → env.StackID ≠ "" →
      (IsCached env layer version = true ↔
        layer.Metadata.lookup versionKey = some version ∧
          layer.Metadata.lookup stackKey = some env.StackID)) ∧
    (layer.Metadata.lookup versionKey = none → version ≠ "" →
      IsCached env layer version = false) ∧
    (layer.Metadata.lookup stackKey = none → env.StackID ≠ "" →
      IsCached env layer version = false) := by
  refine ⟨?_, ?_, ?_, ?_⟩
  · simp [IsCached]
  · intro hv hs
    simp only [IsCached, GetMetadata, Bool.and_eq_true, beq_iff_eq]
    cases h1 : layer.Metadata.lookup versionKey <;> cases h2 : layer.Metadata.lookup stackKey <;>
      simp [Ne.symm hv, Ne.symm hs]
  · intro h hv
    simp [IsCached, GetMetadata, h, Ne.symm hv]
  · intro h hs
    simp [IsCached, GetMetadata, h, Ne.symm hs]

/-- C1 (witness): the amended statement at the layer that holds version 1.0.0 for the stack
`google.22`. -/
theorem IsCached_iff_witness :
    ("1.0.0" ≠ "" ∧ offline.StackID ≠ "") ∧
      (IsCached offline installed.layer "1.0.0" = true ↔
        installed.layer.Metadata.lookup versionKey = some "1.0.0" ∧
          installed.layer.Metadata.lookup stackKey = some offline.StackID) :=
  ⟨⟨by decide, by decide⟩, (IsCached_iff offline installed.layer "1.0.0").2.1 (by decide) (by decide)⟩

/-- C2: when the version resolves, the layer has caching enabled and `IsCached` holds for
the resolved version, `InstallTarballIfNotCached` returns `(true, nil)`, leaves the layer
record and the directory as they were, and makes no `ClearLayer` and no `fetch.Tarball`
call; and a call that returns a nil error returns true in that case only. -/
theorem InstallTarballIfNotCached_cache_hit (env : Env) (runtime : InstallableRuntime)
    (versionConstraint : String) (w : World) :
    (∀ version,
      ResolveVersion env runtime versionConstraint (osOrFallback env w).1 = .ok version →
      w.layer.Cache = true → IsCached env w.layer version = true →
        (InstallTarballIfNotCached env runtime versionConstraint w).1 = (true, none) ∧
        (InstallTarballIfNotCached env runtime versionConstraint w).2.layer = w.layer ∧
        (InstallTarballIfNotCached env runtime versionConstraint w).2.files = w.files ∧
        (InstallTarballIfNotCached env runtime versionConstraint w).2.log =
          (osOrFallback env w).2.log ++
            [.AddBOMEntry runtime version true true, .CacheHit runtime,
              .Logf "%s v%s cache hit, skipping installation." [runtimeNames runtime, version]] ∧
        ∀ e ∈ World.since (InstallTarballIfNotCached env runtime versionConstraint w).2 w,
          (∀ name, e ≠ .ClearLayer name) ∧ ∀ url dir n, e ≠ .Tarball url dir n) ∧
    ((InstallTarballIfNotCached env runtime versionConstraint w).1.2 = none →
      ((InstallTarballIfNotCached env runtime versionConstraint w).1.1 = true ↔
        w.layer.Cache = true ∧
          ∃ version,
            ResolveVersion env runtime versionConstraint (osOrFallback env w).1 = .ok version ∧
              IsCached env w.layer version = true)) := by
  constructor
  · intro version hres hcache hhit
    have hrun : InstallTarballIfNotCached env runtime versionConstraint w =
        ((true, none),
          (((osOrFallback env w).2.emit (.AddBOMEntry runtime version true true)).emit
            (.CacheHit runtime)).emit
            (.Logf "%s v%s cache hit, skipping installation." [runtimeNames runtime, version])) := by
      simp [InstallTarballIfNotCached, hres, hcache, hhit]
    rw [hrun]
    refine ⟨rfl, by simp, by simp, by simp, ?_⟩
    intro e he
    rcases osOrFallback_log env w with h | h
    · rw [since_append _ w [.AddBOMEntry runtime version true true, .CacheHit runtime,
        .Logf "%s v%s cache hit, skipping installation." [runtimeNames runtime, version]]
        (by simp [h])] at he
      simp at he
      rcases he with rfl | rfl | rfl <;> simp
    · rw [since_append _ w [.Warnf "unknown stack ID %q, falling back to Ubuntu 18.04" [env.StackID],
        .AddBOMEntry runtime version true true, .CacheHit runtime,
        .Logf "%s v%s cache hit, skipping installation." [runtimeNames runtime, version]]
        (by simp [h])] at he
      simp at he
      rcases he with rfl | rfl | rfl | rfl <;> simp
  · intro _
    unfold InstallTarballIfNotCached
    dsimp only
    cases hres : ResolveVersion env runtime versionConstraint (osOrFallback env w).1 with
    | error err => simp
    | ok version =>
      cases hcache : w.layer.Cache <;> cases hhit : IsCached env w.layer version <;>
        simp [hcache, hhit, installTarball_not_cached]

/-- C2 (witness): asking again for version 1.0.0 on the layer that already holds it is a
hit; asking for the range `^1.0.0`, which resolves to 1.2.0, returns nil and false. -/
theorem InstallTarballIfNotCached_cache_hit_witness :
    ((ResolveVersion offline Nodejs "1.0.0" (osOrFallback offline installed).1 = .ok "1.0.0" ∧
        installed.layer.Cache = true ∧ IsCached offline installed.layer "1.0.0" = true) ∧
      (InstallTarballIfNotCached offline Nodejs "1.0.0" installed).1 = (true, none) ∧
      (InstallTarballIfNotCached offline Nodejs "1.0.0" installed).2.layer = installed.layer ∧
      (InstallTarballIfNotCached offline Nodejs "1.0.0" installed).2.files = installed.files) ∧
    ((InstallTarballIfNotCached (online "1.22.19") Nodejs "^1.0.0" installed).1 = (false, none) ∧
      ((InstallTarballIfNotCached (online "1.22.19") Nodejs "^1.0.0" installed).1.1 = true ↔
        installed.layer.Cache = true ∧
          ∃ version,
            ResolveVersion (online "1.22.19") Nodejs "^1.0.0"
                (osOrFallback (online "1.22.19") installed).1 = .ok version ∧
              IsCached (online "1.22.19") installed.layer version = true)) :=
  have h := (InstallTarballIfNotCached_cache_hit offline Nodejs "1.0.0" installed).1 "1.0.0"
    rfl (by decide) (by decide)
  ⟨⟨⟨rfl, by decide, by decide⟩, h.1, h.2.1, h.2.2.1⟩,
    rfl, (InstallTarballIfNotCached_cache_hit (online "1.22.19") Nodejs "^1.0.0" installed).2 rfl⟩

/-- C3 (counterexample): Yarn 3.2.0 is at or above 2.0.0; when its download fails, here
before a single byte has arrived, the call returns the error and the layer record is
untouched, but the directory is not empty: it holds `bin/yarn`, the file created before the
download. -/
theorem InstallYarnLayer_failed_download_leaves_file :
    (InstallYarnLayer (downloadFails "3.2.0") fresh).1 =
        .returned (some (.raw "dial tcp: connection refused")) ∧
      (InstallYarnLayer (downloadFails "3.2.0") fresh).2.layer = fresh.layer ∧
      (InstallYarnLayer (downloadFails "3.2.0") fresh).2.files =
        [("bin", .dir [("yarn", .file "")])] ∧
      (InstallYarnLayer (downloadFails "3.2.0") fresh).2.files ≠ [] :=
  ⟨rfl, rfl, rfl, fun h => by
    have h2 : (InstallYarnLayer (downloadFails "3.2.0") fresh).2.files =
        [("bin", .dir [("yarn", .file "")])] := rfl
    rw [h2] at h
    simp at h⟩

/-- C3 (amended): when the artifact download fails, the call returns that error and the
layer's metadata is exactly what it was before the call. No installer cleans up after the
failed download, so the layer directory, cleared before the download, afterwards holds
what the download left: for `InstallTarballIfNotCached` and for `InstallYarnLayer` with a
version below 2.0.0 whatever `fetch.Tarball` had unpacked before it failed (nothing, when it
failed before writing); for a Yarn version at or above 2.0.0 only `bin/yarn`, the file
created before the download, holding the bytes that had arrived (empty, when none had). For
`InstallDartSDK` the directory is empty, the temporary archive being removed on return. -/
theorem failed_fetch_state (env : Env) (w : World) :
    (∀ runtime c version err left,
      ResolveVersion env runtime c (osOrFallback env w).1 = .ok version →
      (w.layer.Cache = true → IsCached env w.layer version = false) →
      env.clearLayerFailure w.layer.Path w.files = none →
      env.Tarball (googleTarballURL (osOrFallback env w).1 runtime (replacePlus version))
        w.layer.Path (if runtime = OpenJDK then 1 else 0) [] = (some err, left) →
        (InstallTarballIfNotCached env runtime c w).1 = (false, some (.raw err)) ∧
        (InstallTarballIfNotCached env runtime c w).2.files = left ∧
        (InstallTarballIfNotCached env runtime c w).2.layer = w.layer) ∧
    (∀ version random err written,
      env.clearLayerFailure w.layer.Path w.files = none →
      env.TempFile w.layer.Path "dart-sdk-*.zip" = .ok random →
      env.GetURL (dartSdkURL version) = (some err, written) →
        (InstallDartSDK env version w).1 = some (.raw err) ∧
        (InstallDartSDK env version w).2.files = [] ∧
        (InstallDartSDK env version w).2.layer = w.layer) ∧
    (∀ version v err,
      DetectYarnVersion env env.ApplicationRoot = .ok version →
      version ≠ GetMetadata w.layer versionKey →
      env.clearLayerFailure w.layer.Path w.files = none →
      env.NewVersion version = .ok v →
        (Version.LessThan env v version2 = true →
          ∀ left, env.Tarball (yarnURL version) w.layer.Path 1 [] = (some err, left) →
            (InstallYarnLayer env w).1 = .returned (some (.raw err)) ∧
            (InstallYarnLayer env w).2.files = left ∧
            (InstallYarnLayer env w).2.layer = w.layer) ∧
        (Version.LessThan env v version2 = false →
          env.MkdirAll (filepathDir (Join [w.layer.Path, "bin", "yarn"])) = none →
          env.OpenFile (Join [w.layer.Path, "bin", "yarn"]) = none →
          ∀ written, env.GetURL (yarn2URL version) = (some err, written) →
            (InstallYarnLayer env w).1 = .returned (some (.raw err)) ∧
            (InstallYarnLayer env w).2.files = [("bin", .dir [("yarn", .file written)])] ∧
            (InstallYarnLayer env w).2.layer = w.layer)) := by
  refine ⟨?_, ?_, ?_⟩
  · intro runtime c version err left hres hmiss hclear hfetch
    cases hcache : w.layer.Cache with
    | false =>
      simp [InstallTarballIfNotCached, hres, hcache, installTarball, ClearLayer, hclear, hfetch]
    | true =>
      have hm := hmiss hcache
      simp [InstallTarballIfNotCached, hres, hcache, hm, installTarball, ClearLayer, hclear,
        hfetch]
  · intro version random err written hclear htemp hfetch
    simp [InstallDartSDK, ClearLayer, hclear, htemp, installDartSDKBody, hfetch, setEntry, Remove,
      lookupEntry_cons, eraseEntry]
  · intro version v err hd hmiss hclear hparse
    constructor
    · intro hlt left hfetch
      simp [InstallYarnLayer, hd, yarnLayerStep, hmiss, ClearLayer, hclear, InstallYarn, hparse,
        hlt, hfetch]
    · intro hge hmk hop written hfetch
      simp [InstallYarnLayer, hd, yarnLayerStep, hmiss, ClearLayer, hclear, InstallYarn, hparse,
        hge, mkdirBin, hmk, openYarn, hop, hfetch, lookupEntry_cons, lookupEntry_nil, setEntry,
        writeYarn, overwrite_empty]

/-- C3 (witness): the four installs on the layer that held version 1.0.0, first with the
network down, so that nothing is written, then for the tarball and the Yarn binary with a
download that breaks off part-way. -/
theorem failed_fetch_state_witness :
    ((InstallTarballIfNotCached offline Nodejs "2.0.0" installed).1 =
        (false, some (.raw "dial tcp: connection refused")) ∧
      (InstallTarballIfNotCached offline Nodejs "2.0.0" installed).2.files = [] ∧
      (InstallTarballIfNotCached offline Nodejs "2.0.0" installed).2.layer = installed.layer) ∧
    ((InstallDartSDK offline "3.0.0" installed).1 = some (.raw "dial tcp: connection refused") ∧
      (InstallDartSDK offline "3.0.0" installed).2.files = [] ∧
      (InstallDartSDK offline "3.0.0" installed).2.layer = installed.layer) ∧
    ((InstallYarnLayer (downloadFails "1.22.19") installed).1 =
        .returned (some (.raw "dial tcp: connection refused")) ∧
      (InstallYarnLayer (downloadFails "1.22.19") installed).2.files = [] ∧
      (InstallYarnLayer (downloadFails "1.22.19") installed).2.layer = installed.layer) ∧
    ((InstallYarnLayer (downloadFails "3.2.0") installed).1 =
        .returned (some (.raw "dial tcp: connection refused")) ∧
      (InstallYarnLayer (downloadFails "3.2.0") installed).2.files =
        [("bin", .dir [("yarn", .file "")])] ∧
      (InstallYarnLayer (downloadFails "3.2.0") installed).2.layer = installed.layer) ∧
    ((InstallTarballIfNotCached (interrupted "3.2.0") Nodejs "2.0.0" installed).1 =
        (false, some (.raw "unexpected EOF")) ∧
      (InstallTarballIfNotCached (interrupted "3.2.0") Nodejs "2.0.0" installed).2.files =
        [("bin", .dir [])] ∧
      (InstallTarballIfNotCached (interrupted "3.2.0") Nodejs "2.0.0" installed).2.layer =
        installed.layer) ∧
    ((InstallYarnLayer (interrupted "3.2.0") installed).1 =
        .returned (some (.raw "unexpected EOF")) ∧
      (InstallYarnLayer (interrupted "3.2.0") installed).2.files =
        [("bin", .dir [("yarn", .file "pay")])] ∧
      (InstallYarnLayer (interrupted "3.2.0") installed).2.layer = installed.layer) :=
  ⟨(failed_fetch_state offline installed).1 Nodejs "2.0.0" "2.0.0" "dial tcp: connection refused"
      [] rfl (fun _ => by decide) rfl rfl,
    (failed_fetch_state offline installed).2.1 "3.0.0" "123456789" "dial tcp: connection refused"
      "" rfl rfl rfl,
    ((failed_fetch_state (downloadFails "1.22.19") installed).2.2 "1.22.19"
      { major := 1, minor := 22, patch := 19, pre := "", metadata := "", original := "1.22.19" }
      "dial tcp: connection refused" rfl (by decide) rfl rfl).1 (by decide) [] rfl,
    ((failed_fetch_state (downloadFails "3.2.0") installed).2.2 "3.2.0"
      { major := 3, minor := 2, patch := 0, pre := "", metadata := "", original := "3.2.0" }
      "dial tcp: connection refused" rfl (by decide) rfl rfl).2 (by decide) rfl rfl "" rfl,
    (failed_fetch_state (interrupted "3.2.0") installed).1 Nodejs "2.0.0" "2.0.0" "unexpected EOF"
      [("bin", .dir [])] rfl (fun _ => by decide) rfl rfl,
    ((failed_fetch_state (interrupted "3.2.0") installed).2.2 "3.2.0"
      { major := 3, minor := 2, patch := 0, pre := "", metadata := "", original := "3.2.0" }
      "unexpected EOF" rfl (by decide) rfl rfl).2 (by decide) rfl rfl "pay" rfl⟩

/-- C4 (counterexample): the layer holds version 1.0.0; installing 2.0.0 with the network
down fails, and afterwards the metadata still names 1.0.0 although the directory, which
held that installation, is empty. -/
theorem failed_install_keeps_old_version :
    (InstallTarballIfNotCached offline Nodejs "2.0.0" installed).1.2 =
        some (.raw "dial tcp: connection refused") ∧
      installed.files = [("bin", .dir [("run", .file "elf")])] ∧
      List.lookup versionKey (InstallTarballIfNotCached offline Nodejs "2.0.0" installed).2.layer.Metadata =
        some "1.0.0" ∧
      (InstallTarballIfNotCached offline Nodejs "2.0.0" installed).2.files = [] :=
  ⟨rfl, rfl, rfl, rfl⟩

/-- C4 (amended): a call that returns an error never newly records a version whose install
did not complete. After a failed `InstallTarballIfNotCached` or `InstallDartSDK` the layer
record is exactly what it was before the call, so its `version` is absent or still names
the earlier version, whose files the call may have cleared. The same holds for a failed
`InstallYarnLayer`, except when it fails at the `PATH` update: then the cache step had
succeeded, and the record names the version that was just installed or found cached. -/
theorem failed_install_metadata (env : Env) (w : World) :
    (∀ runtime c, (InstallTarballIfNotCached env runtime c w).1.2 ≠ none →
      (InstallTarballIfNotCached env runtime c w).2.layer = w.layer) ∧
    (∀ version, (InstallDartSDK env version w).1 ≠ none →
      (InstallDartSDK env version w).2.layer = w.layer) ∧
    (∀ err, (InstallYarnLayer env w).1 = .returned (some err) →
      (InstallYarnLayer env w).2.layer = w.layer ∨
      ∃ version, DetectYarnVersion env env.ApplicationRoot = .ok version ∧
        (yarnLayerStep env version w).1 = .returned none ∧
        (InstallYarnLayer env w).2.layer = SetMetadata w.layer versionKey version ∧
        (InstallYarnLayer env w).2.files = (yarnLayerStep env version w).2.files) := by
  refine ⟨?_, ?_, ?_⟩
  · intro runtime c h
    unfold InstallTarballIfNotCached at h ⊢
    dsimp only at h ⊢
    cases hres : ResolveVersion env runtime c (osOrFallback env w).1 with
    | error err => simp
    | ok version =>
      simp only [hres] at h ⊢
      cases hcache : w.layer.Cache with
      | false =>
        simp only [hcache, emit_layer, osOrFallback_layer] at h ⊢
        simpa using installTarball_error_layer env runtime version _ _ h
      | true =>
        cases hhit : IsCached env w.layer version with
        | true => simp [hcache, hhit] at h
        | false =>
          simp only [hcache, hhit, emit_layer, osOrFallback_layer] at h ⊢
          simpa using installTarball_error_layer env runtime version _ _ h
  · intro version h
    unfold InstallDartSDK at h ⊢
    generalize hc : ClearLayer env w = c at h ⊢
    obtain ⟨e, w1⟩ := c
    have hl : w1.layer = w.layer := by
      have := ClearLayer_layer env w
      rw [hc] at this
      exact this
    cases e with
    | some err => exact hl
    | none =>
      simp only [emit_layer] at h ⊢
      cases ht : env.TempFile w1.layer.Path "dart-sdk-*.zip" with
      | error err => exact hl
      | ok random =>
        simp only [ht] at h ⊢
        exact (installDartSDKBody_error_layer env version _ _ h).trans hl
  · intro err h
    unfold InstallYarnLayer at h ⊢
    cases hd : DetectYarnVersion env env.ApplicationRoot with
    | error e => exact Or.inl (by simp)
    | ok version =>
      simp only [hd] at h ⊢
      have hsl := yarnLayerStep_layer env version w
      generalize hst : yarnLayerStep env version w = st at h hsl ⊢
      obtain ⟨o, w1⟩ := st
      cases o with
      | panicked r => simp at h
      | returned e =>
        cases e with
        | some e1 => exact Or.inl hsl
        | none =>
          refine Or.inr ⟨version, rfl, by rw [hst], ?_, ?_⟩
          · dsimp only
            rw [storeYarnLayer_layer]
            exact congrArg (fun l => SetMetadata l versionKey version) hsl
          · rw [hst]
            exact storeYarnLayer_files env version w1

/-- C4 (witness): the failed install of 2.0.0 over 1.0.0 leaves the record as it was, and
so does a failed Dart install; a Yarn install that fails only at the `PATH` update has
recorded the version it installed. -/
theorem failed_install_metadata_witness :
    ((InstallTarballIfNotCached offline Nodejs "2.0.0" installed).1.2 ≠ none ∧
      (InstallTarballIfNotCached offline Nodejs "2.0.0" installed).2.layer = installed.layer) ∧
    ((InstallDartSDK offline "3.0.0" installed).1 ≠ none ∧
      (InstallDartSDK offline "3.0.0" installed).2.layer = installed.layer) ∧
    ((InstallYarnLayer (pathUpdateFails "1.22.19") installed).1 =
        .returned (some (.raw "setenv: invalid argument")) ∧
      ((InstallYarnLayer (pathUpdateFails "1.22.19") installed).2.layer = installed.layer ∨
        ∃ version,
          DetectYarnVersion (pathUpdateFails "1.22.19") (pathUpdateFails "1.22.19").ApplicationRoot =
            .ok version ∧
          (yarnLayerStep (pathUpdateFails "1.22.19") version installed).1 = .returned none ∧
          (InstallYarnLayer (pathUpdateFails "1.22.19") installed).2.layer =
            SetMetadata installed.layer versionKey version ∧
          (InstallYarnLayer (pathUpdateFails "1.22.19") installed).2.files =
            (yarnLayerStep (pathUpdateFails "1.22.19") version installed).2.files)) :=
  ⟨⟨by decide, (failed_install_metadata offline installed).1 Nodejs "2.0.0" (by decide)⟩,
    ⟨by decide, (failed_install_metadata offline installed).2.1 "3.0.0" (by decide)⟩,
    rfl, (failed_install_metadata (pathUpdateFails "1.22.19") installed).2.2 _ rfl⟩

/-- C5 (counterexample): a Yarn layer stored under the stack `google` is served as a hit
under the stack `google.22`: the first call is `CacheHit`, nothing is cleared or fetched,
and the directory is left as it was. -/
theorem InstallYarnLayer_hit_across_stacks :
    GetMetadata yarnFromOtherStack.layer stackKey = "google" ∧
      (online "1.22.19").StackID = "google.22" ∧
      (InstallYarnLayer (online "1.22.19") yarnFromOtherStack).1 = .returned none ∧
      (InstallYarnLayer (online "1.22.19") yarnFromOtherStack).2.log =
        [.CacheHit "yarn", .Logf "Yarn cache hit, skipping installation." [],
          .Setenv "PATH" "/layers/yarn/bin:/usr/bin", .AddBOMEntry "yarn" "1.22.19" true true] ∧
      (InstallYarnLayer (online "1.22.19") yarnFromOtherStack).2.files =
        yarnFromOtherStack.files :=
  ⟨rfl, rfl, rfl, rfl, rfl⟩

/-- C5 (amended): `InstallTarballIfNotCached` reports a cached layer exactly when caching is
enabled for the layer, the stored version reads as the resolved version and the stored
stack reads as the current stack id; in every other call in which the version resolves it
clears the layer and, the clearing done, fetches the tarball. `InstallYarnLayer` skips the
installation exactly when the stored version reads as the detected version: on a match
nothing is cleared or fetched, on a mismatch the layer is cleared and `InstallYarn` runs on
the emptied directory. It does not look at the stack at all, so its result is the same
under every stack id. -/
theorem cache_hit_conditions (env : Env) (w : World) :
    (∀ runtime c,
      (InstallTarballIfNotCached env runtime c w).1.1 = true ↔
        w.layer.Cache = true ∧
          ∃ version, ResolveVersion env runtime c (osOrFallback env w).1 = .ok version ∧
            GetMetadata w.layer versionKey = version ∧
            GetMetadata w.layer stackKey = env.StackID) ∧
    (∀ version, DetectYarnVersion env env.ApplicationRoot = .ok version →
      ((World.since (InstallYarnLayer env w).2 w).head? = some (.CacheHit w.layer.Name) ↔
        version = GetMetadata w.layer versionKey) ∧
      (version = GetMetadata w.layer versionKey →
        (InstallYarnLayer env w).2.files = w.files ∧
        ∀ e ∈ World.since (InstallYarnLayer env w).2 w,
          (∀ name, e ≠ .ClearLayer name) ∧ (∀ url dir n, e ≠ .Tarball url dir n) ∧
            ∀ url dest, e ≠ .GetURL url dest) ∧
      (version ≠ GetMetadata w.layer versionKey →
        (World.since (InstallYarnLayer env w).2 w).take 2 =
          [.CacheMiss w.layer.Name, .ClearLayer w.layer.Name] ∧
        (∀ err left, env.clearLayerFailure w.layer.Path w.files = some (err, left) →
          (InstallYarnLayer env w).1 =
            .returned (some (.Errorf "clearing layer %q: %w" [w.layer.Name, err])) ∧
          (InstallYarnLayer env w).2.files = left) ∧
        (env.clearLayerFailure w.layer.Path w.files = none →
          InstallYarnLayer env w =
            match InstallYarn env w.layer.Path version
              { layer := w.layer, files := [], PATH := w.PATH,
                log := w.log ++ [.CacheMiss w.layer.Name, .ClearLayer w.layer.Name,
                  .Logf "Installing Yarn v%s" [version]] } with
            | (.returned none, w1) => storeYarnLayer env version w1
            | (ended, w1) => (ended, w1)))) ∧
    (∀ stack, InstallYarnLayer { env with StackID := stack } w = InstallYarnLayer env w) ∧
    (∀ runtime c version,
      ResolveVersion env runtime c (osOrFallback env w).1 = .ok version →
      ¬ (w.layer.Cache = true ∧ IsCached env w.layer version = true) →
        (InstallTarballIfNotCached env runtime c w).1.1 = false ∧
        Event.ClearLayer w.layer.Name ∈
          World.since (InstallTarballIfNotCached env runtime c w).2 w ∧
        (env.clearLayerFailure w.layer.Path w.files = none →
          Event.Tarball
            (googleTarballURL (osOrFallback env w).1 runtime (replacePlus version))
            w.layer.Path (if runtime = OpenJDK then 1 else 0) ∈
              World.since (InstallTarballIfNotCached env runtime c w).2 w)) := by
  refine ⟨?_, ?_, ?_, ?_⟩
  · intro runtime c
    unfold InstallTarballIfNotCached
    dsimp only
    cases hres : ResolveVersion env runtime c (osOrFallback env w).1 with
    | error err => simp
    | ok version =>
      cases hcache : w.layer.Cache <;> cases hhit : IsCached env w.layer version <;>
        simp [hcache, hhit, installTarball_not_cached] <;>
        simpa [IsCached] using hhit
  · intro version hd
    by_cases hv : version = GetMetadata w.layer versionKey
    · have hrun : InstallYarnLayer env w =
          storeYarnLayer env version ((w.emit (.CacheHit w.layer.Name)).emit
            (.Logf "Yarn cache hit, skipping installation." [])) := by
        simp [InstallYarnLayer, hd, yarnLayerStep, ← hv]
      rw [hrun]
      refine ⟨⟨fun _ => hv, fun _ => ?_⟩, fun _ => ⟨storeYarnLayer_files _ _ _, ?_⟩,
        fun hne => absurd hv hne⟩
      · unfold storeYarnLayer
        dsimp only
        split <;> simp [World.since]
      · unfold storeYarnLayer
        dsimp only
        split <;> simp [World.since]
    · obtain ⟨rest, hrest⟩ := yarnLayerStep_miss_log env version w hv
      obtain ⟨new, hnew⟩ := InstallYarnLayer_log env version w hd
      have hs : World.since (InstallYarnLayer env w).2 w =
          .CacheMiss w.layer.Name :: .ClearLayer w.layer.Name :: (rest ++ new) :=
        since_append _ w _ (by rw [hnew, hrest]; simp)
      refine ⟨?_, fun h => absurd h hv, fun _ => ⟨?_, ?_, ?_⟩⟩
      · rw [hs]
        simp [hv]
      · rw [hs]
        rfl
      · intro err left hc
        simp [InstallYarnLayer, hd, yarnLayerStep, hv, ClearLayer, hc]
      · intro hc
        simp [InstallYarnLayer, hd, yarnLayerStep, hv, ClearLayer, hc, World.emit]
  · intro stack
    rfl
  · intro runtime c version hres hnot
    have hpre : ∃ pre, (osOrFallback env w).2.log = w.log ++ pre := by
      rcases osOrFallback_log env w with h | h
      · exact ⟨[], by simp [h]⟩
      · exact ⟨_, h⟩
    obtain ⟨pre, hpre⟩ := hpre
    cases hcache : w.layer.Cache with
    | false =>
      have hrun : InstallTarballIfNotCached env runtime c w =
          installTarball env runtime version (osOrFallback env w).1
            ((osOrFallback env w).2.emit (.AddBOMEntry runtime version true true)) := by
        simp [InstallTarballIfNotCached, hres, hcache]
      rw [hrun]
      exact ⟨installTarball_not_cached _ _ _ _ _,
        installTarball_since env runtime version _ w _
          (pre ++ [.AddBOMEntry runtime version true true]) (by simp) (by simp)
          (by simp [hpre])⟩
    | true =>
      have hhit : IsCached env w.layer version = false := by
        cases hh : IsCached env w.layer version with
        | false => rfl
        | true => exact absurd ⟨hcache, hh⟩ hnot
      have hrun : InstallTarballIfNotCached env runtime c w =
          installTarball env runtime version (osOrFallback env w).1
            (((osOrFallback env w).2.emit (.AddBOMEntry runtime version true true)).emit
              (.CacheMiss runtime)) := by
        simp [InstallTarballIfNotCached, hres, hcache, hhit]
      rw [hrun]
      exact ⟨installTarball_not_cached _ _ _ _ _,
        installTarball_since env runtime version _ w _
          (pre ++ [.AddBOMEntry runtime version true true, .CacheMiss runtime]) (by simp)
          (by simp) (by simp [hpre])⟩

/-- C5 (witness): when the detected Yarn version equals the stored one the install is
skipped; when it differs (3.2.0 detected, 1.22.19 stored) the layer is cleared first. -/
theorem cache_hit_conditions_witness :
    (DetectYarnVersion (online "1.22.19") (online "1.22.19").ApplicationRoot = .ok "1.22.19" ∧
      ((World.since (InstallYarnLayer (online "1.22.19") yarnFromOtherStack).2
          yarnFromOtherStack).head? = some (.CacheHit yarnFromOtherStack.layer.Name) ↔
        "1.22.19" = GetMetadata yarnFromOtherStack.layer versionKey)) ∧
    ((DetectYarnVersion (online "3.2.0") (online "3.2.0").ApplicationRoot = .ok "3.2.0" ∧
        "3.2.0" ≠ GetMetadata yarnFromOtherStack.layer versionKey) ∧
      (World.since (InstallYarnLayer (online "3.2.0") yarnFromOtherStack).2
          yarnFromOtherStack).take 2 =
        [.CacheMiss yarnFromOtherStack.layer.Name, .ClearLayer yarnFromOtherStack.layer.Name]) :=
  ⟨⟨rfl, ((cache_hit_conditions (online "1.22.19") yarnFromOtherStack).2.1 "1.22.19" rfl).1⟩,
    ⟨rfl, by decide⟩,
    (((cache_hit_conditions (online "3.2.0") yarnFromOtherStack).2.1 "3.2.0" rfl).2.2
      (by decide)).1⟩

/-- An exact semantic version is handed back as given, whatever the catalogue holds: the
catalogue is not consulted at all. -/
theorem ResolveVersion_exact (env : Env) (runtime : InstallableRuntime) (c os : String)
    (h : env.IsExactSemver c = true) : ResolveVersion env runtime c os = .ok c := by
  simp [ResolveVersion, h]

/-- C6 (the code at the failing input): the catalogue lists 1.0.0, 1.2.0 and 2.0.0, none of
which satisfies the constraint `9.9.9`, and `version.ResolveVersion` finds no match for it
there; yet `ResolveVersion` returns no error: it hands back `9.9.9`, a version that is not
available. -/
theorem ResolveVersion_exact_not_in_catalog :
    (online "1.22.19").JSON (runtimeVersionsURL "ubuntu2204" Nodejs) =
        .ok ["1.0.0", "1.2.0", "2.0.0"] ∧
      "9.9.9" ∉ ["1.0.0", "1.2.0", "2.0.0"] ∧
      (online "1.22.19").versionResolveVersion "9.9.9" ["1.0.0", "1.2.0", "2.0.0"] =
        .error "failed to resolve version" ∧
      ResolveVersion (online "1.22.19") Nodejs "9.9.9" "ubuntu2204" = .ok "9.9.9" :=
  ⟨rfl, by decide, rfl, rfl⟩

/-- C7: for a version string that parses, `InstallYarn` takes the tree-archive strategy
exactly when the version is below 2.0.0 in semantic-version order: its only call is then
`fetch.Tarball` of `https://yarnpkg.com/downloads/<v>/yarn-v<v>.tar.gz` into `dir` with one
leading component stripped, and its result is the result of that call. Otherwise it takes
the single-binary strategy and makes no `fetch.Tarball` call: it creates `<dir>/bin`, opens
`<dir>/bin/yarn` and downloads
`https://repo.yarnpkg.com/<v>/packages/yarnpkg-cli/bin/yarn.js` into that file. -/
theorem InstallYarn_strategy (env : Env) (dir version : String) (w : World) (v : Version)
    (h : env.NewVersion version = .ok v) :
    (Version.LessThan env v version2 = true ↔
      v.major < 2 ∨ (v.major = 2 ∧ v.minor = 0 ∧ v.patch = 0 ∧ v.pre ≠ "")) ∧
    (Version.LessThan env v version2 = true →
      World.since (InstallYarn env dir version w).2 w = [.Tarball (yarnURL version) dir 1] ∧
      (∀ files, env.Tarball (yarnURL version) dir 1 w.files = (none, files) →
        (InstallYarn env dir version w).1 = .returned none ∧
          (InstallYarn env dir version w).2.files = files) ∧
      (∀ err left, env.Tarball (yarnURL version) dir 1 w.files = (some err, left) →
        (InstallYarn env dir version w).1 = .returned (some (.raw err)) ∧
          (InstallYarn env dir version w).2.files = left)) ∧
    (Version.LessThan env v version2 = false →
      (∀ url d n, Event.Tarball url d n ∉ World.since (InstallYarn env dir version w).2 w) ∧
      (World.since (InstallYarn env dir version w).2 w).head? =
        some (.MkdirAll (filepathDir (Join [dir, "bin", "yarn"]))) ∧
      List.IsPrefix (World.since (InstallYarn env dir version w).2 w)
        [.MkdirAll (filepathDir (Join [dir, "bin", "yarn"])), .OpenFile (Join [dir, "bin", "yarn"]),
          .GetURL (yarn2URL version) (Join [dir, "bin", "yarn"])] ∧
      (∀ files1 files2,
        mkdirBin env (filepathDir (Join [dir, "bin", "yarn"])) w.files = .ok files1 →
        openYarn env (Join [dir, "bin", "yarn"]) files1 = .ok files2 →
          World.since (InstallYarn env dir version w).2 w =
            [.MkdirAll (filepathDir (Join [dir, "bin", "yarn"])),
              .OpenFile (Join [dir, "bin", "yarn"]),
              .GetURL (yarn2URL version) (Join [dir, "bin", "yarn"])] ∧
          (∀ body, env.GetURL (yarn2URL version) = (none, body) →
            (InstallYarn env dir version w).1 = .returned none ∧
            (∃ bin old, lookupEntry "bin" (InstallYarn env dir version w).2.files = some (.dir bin) ∧
              lookupEntry "yarn" bin = some (.file (overwrite old body))) ∧
            (w.files = [] →
              (InstallYarn env dir version w).2.files = [("bin", .dir [("yarn", .file body)])])) ∧
          ∀ err written, env.GetURL (yarn2URL version) = (some err, written) →
            (InstallYarn env dir version w).1 = .returned (some (.raw err)) ∧
            (∃ bin old, lookupEntry "bin" (InstallYarn env dir version w).2.files = some (.dir bin) ∧
              lookupEntry "yarn" bin = some (.file (overwrite old written))) ∧
            (w.files = [] →
              (InstallYarn env dir version w).2.files =
                [("bin", .dir [("yarn", .file written)])]))) := by
  refine ⟨LessThan_version2 env v, fun hlt => ?_, fun hge => ?_⟩
  · rcases ht : env.Tarball (yarnURL version) dir 1 w.files with ⟨te, tf⟩
    cases te with
    | some err => simp [InstallYarn, h, hlt, ht, World.since]
    | none => simp [InstallYarn, h, hlt, ht, World.since]
  · cases hm : mkdirBin env (filepathDir (Join [dir, "bin", "yarn"])) w.files with
    | error err =>
      have hrun : InstallYarn env dir version w =
          (.returned (some (.InternalErrorf "creating directory %q: %v"
            [filepathDir (Join [dir, "bin", "yarn"]), err])),
            w.emit (.MkdirAll (filepathDir (Join [dir, "bin", "yarn"])))) := by
        simp [InstallYarn, h, hge, hm]
      rw [hrun]
      refine ⟨?_, ?_, ?_, ?_⟩
      · simp [World.since]
      · simp [World.since]
      · simp [World.since]
      · intro f1 f2 h1
        simp at h1
    | ok files1 =>
      cases ho : openYarn env (Join [dir, "bin", "yarn"]) files1 with
      | error err =>
        have hrun : InstallYarn env dir version w =
            (.returned (some (.InternalErrorf "creating file %q: %v" [Join [dir, "bin", "yarn"], err])),
              ({ w.emit (.MkdirAll (filepathDir (Join [dir, "bin", "yarn"]))) with
                files := files1 }).emit (.OpenFile (Join [dir, "bin", "yarn"]))) := by
          simp [InstallYarn, h, hge, hm, ho]
        rw [hrun]
        refine ⟨?_, ?_, ?_, ?_⟩
        · simp [World.since]
        · simp [World.since]
        · simp [World.since]
        · intro f1 f2 h1 h2
          injection h1 with h1
          subst h1
          rw [ho] at h2
          simp at h2
      | ok files2 =>
        obtain ⟨b1, _, hm0⟩ := mkdirBin_ok env _ _ _ hm
        obtain ⟨bin, old, hb, hy, ho0⟩ := openYarn_ok env _ _ _ ho
        rcases hg : env.GetURL (yarn2URL version) with ⟨ge, body⟩
        have hfiles : w.files = [] → writeYarn body files2 = [("bin", .dir [("yarn", .file body)])] := by
          intro hf
          rw [ho0 (hm0 hf)]
          simp [writeYarn, lookupEntry_cons, setEntry, overwrite_empty]
        cases ge with
        | some err =>
          have hrun : InstallYarn env dir version w =
              (.returned (some (.raw err)),
                { ({ ({ w.emit (.MkdirAll (filepathDir (Join [dir, "bin", "yarn"]))) with
                  files := files1 }).emit (.OpenFile (Join [dir, "bin", "yarn"])) with
                  files := files2 }).emit
                    (.GetURL (yarn2URL version) (Join [dir, "bin", "yarn"])) with
                  files := writeYarn body files2 }) := by
            simp [InstallYarn, h, hge, hm, ho, hg]
          rw [hrun]
          refine ⟨?_, ?_, ?_, ?_⟩
          · simp [World.since]
          · simp [World.since]
          · simp [World.since]
          · intro f1 f2 h1 h2
            refine ⟨by simp [World.since], ?_, ?_⟩
            · intro body1 hbody
              simp at hbody
            · intro err1 written hw
              injection hw with hw1 hw2
              injection hw1 with hw1
              subst hw1 hw2
              refine ⟨rfl, ?_, hfiles⟩
              obtain ⟨bin1, hb1, hy1⟩ := writeYarn_ok body files2 bin old hb hy
              exact ⟨bin1, old, hb1, hy1⟩
        | none =>
          have hrun : InstallYarn env dir version w =
              (.returned none,
                { ({ ({ w.emit (.MkdirAll (filepathDir (Join [dir, "bin", "yarn"]))) with
                  files := files1 }).emit (.OpenFile (Join [dir, "bin", "yarn"])) with
                  files := files2 }).emit
                    (.GetURL (yarn2URL version) (Join [dir, "bin", "yarn"])) with
                  files := writeYarn body files2 }) := by
            simp [InstallYarn, h, hge, hm, ho, hg]
          rw [hrun]
          refine ⟨?_, ?_, ?_, ?_⟩
          · simp [World.since]
          · simp [World.since]
          · simp [World.since]
          · intro f1 f2 h1 h2
            refine ⟨by simp [World.since], ?_, ?_⟩
            · intro body1 hbody
              injection hbody with _ hbody
              subst hbody
              refine ⟨rfl, ?_, hfiles⟩
              obtain ⟨bin1, hb1, hy1⟩ := writeYarn_ok body files2 bin old hb hy
              exact ⟨bin1, old, hb1, hy1⟩
            · intro err1 written hw
              simp at hw

/-- C7 (witness): Yarn 1.22.19 parses and is below 2.0.0, so it is fetched as a tarball;
Yarn 3.2.0 is not below 2.0.0, so its `yarn.js` is downloaded to `bin/yarn`. -/
theorem InstallYarn_strategy_witness :
    (offline.NewVersion "1.22.19" =
        .ok { major := 1, minor := 22, patch := 19, pre := "", metadata := "",
              original := "1.22.19" } ∧
      World.since (InstallYarn offline "/layers/yarn" "1.22.19" fresh).2 fresh =
        [.Tarball "https://yarnpkg.com/downloads/1.22.19/yarn-v1.22.19.tar.gz" "/layers/yarn" 1]) ∧
    ((online "3.2.0").NewVersion "3.2.0" =
        .ok { major := 3, minor := 2, patch := 0, pre := "", metadata := "", original := "3.2.0" } ∧
      World.since (InstallYarn (online "3.2.0") "/layers/yarn" "3.2.0" fresh).2 fresh =
        [.MkdirAll "/layers/yarn/bin", .OpenFile "/layers/yarn/bin/yarn",
          .GetURL "https://repo.yarnpkg.com/3.2.0/packages/yarnpkg-cli/bin/yarn.js"
            "/layers/yarn/bin/yarn"] ∧
      (InstallYarn (online "3.2.0") "/layers/yarn" "3.2.0" fresh).2.files =
        [("bin", .dir [("yarn", .file "payload")])]) :=
  ⟨⟨rfl, ((InstallYarn_strategy offline "/layers/yarn" "1.22.19" fresh _ rfl).2.1 (by decide)).1⟩,
    rfl,
    (((InstallYarn_strategy (online "3.2.0") "/layers/yarn" "3.2.0" fresh _ rfl).2.2
      (by decide)).2.2.2 [("bin", .dir [])] [("bin", .dir [("yarn", .file "")])] rfl rfl).1,
    ((((InstallYarn_strategy (online "3.2.0") "/layers/yarn" "3.2.0" fresh _ rfl).2.2
      (by decide)).2.2.2 [("bin", .dir [])] [("bin", .dir [("yarn", .file "")])] rfl rfl).2.1
        "payload" rfl).2.2 rfl⟩

/-- A version cannot start with `2.` and with `3.0` at once. -/
theorem prefixes_exclusive (version : String) (h : HasPrefix version "2." = true) :
    HasPrefix version "3.0" = false := by
  unfold HasPrefix at *
  rcases hv : version.data with _ | ⟨c, cs⟩
  · rw [hv] at h; simp [List.isPrefixOf] at h
  · rw [hv] at h
    have hc : c = '2' := by
      have : ("2.".data) = ['2', '.'] := rfl
      rw [this] at h
      simp [List.isPrefixOf] at h
      exact h.1.symm
    subst hc
    have : ("3.0".data) = ['3', '.', '0'] := rfl
    rw [this]
    simp [List.isPrefixOf]

/-- C8: the RubyGems version is 3.1.2 for a Ruby version starting with `2.`, 3.2.26 for one
starting with `3.0` and 3.3.15 otherwise; the first command run updates RubyGems to that
version; the bundler install command, run third when the first two commands succeed, always
has the argument `bundler:2.1.4`, and has the argument `bundler:1.17.3` exactly when the
version starts with `2.` or `3.0`. -/
theorem PinGemAndBundlerVersion_pins (env : Env) (version : String) (w : World) :
    ((HasPrefix version "2." = true → (pinnedVersions version).1 = "3.1.2") ∧
      (HasPrefix version "3.0" = true → (pinnedVersions version).1 = "3.2.26") ∧
      (HasPrefix version "2." = false → HasPrefix version "3.0" = false →
        (pinnedVersions version).1 = "3.3.15")) ∧
    ((pinnedVersions version).2 = true ↔
      HasPrefix version "2." = true ∨ HasPrefix version "3.0" = true) ∧
    (∃ k, 0 < k ∧
      execCommands (World.since (PinGemAndBundlerVersion env version w).2 w) =
        List.take k
          [[Join [Join [w.layer.Path, "bin"], "gem"], "update", "--no-document", "--system",
              (pinnedVersions version).1],
            ["rm", "-f", Join [Join [w.layer.Path, "bin"], "bundle"],
              Join [Join [w.layer.Path, "bin"], "bundler"]],
            bundlerCommand (Join [Join [w.layer.Path, "bin"], "gem"]) (pinnedVersions version).2]) ∧
    ((env.Exec [Join [Join [w.layer.Path, "bin"], "gem"], "update", "--no-document", "--system",
        (pinnedVersions version).1] w.files).1 = none →
      (env.Exec ["rm", "-f", Join [Join [w.layer.Path, "bin"], "bundle"],
        Join [Join [w.layer.Path, "bin"], "bundler"]]
        (env.Exec [Join [Join [w.layer.Path, "bin"], "gem"], "update", "--no-document", "--system",
          (pinnedVersions version).1] w.files).2).1 = none →
      execCommands (World.since (PinGemAndBundlerVersion env version w).2 w) =
        [[Join [Join [w.layer.Path, "bin"], "gem"], "update", "--no-document", "--system",
            (pinnedVersions version).1],
          ["rm", "-f", Join [Join [w.layer.Path, "bin"], "bundle"],
            Join [Join [w.layer.Path, "bin"], "bundler"]],
          bundlerCommand (Join [Join [w.layer.Path, "bin"], "gem"]) (pinnedVersions version).2]) ∧
    (∀ gemPath, (bundlerCommand gemPath (pinnedVersions version).2).head? = some gemPath ∧
      "install" ∈ (bundlerCommand gemPath (pinnedVersions version).2).tail ∧
      "bundler:2.1.4" ∈ (bundlerCommand gemPath (pinnedVersions version).2).tail ∧
      ("bundler:1.17.3" ∈ (bundlerCommand gemPath (pinnedVersions version).2).tail ↔
        HasPrefix version "2." = true ∨ HasPrefix version "3.0" = true)) := by
  have hsel : (pinnedVersions version).2 = true ↔
      HasPrefix version "2." = true ∨ HasPrefix version "3.0" = true := by
    unfold pinnedVersions
    cases h2 : HasPrefix version "2." <;> cases h3 : HasPrefix version "3.0" <;> simp
  refine ⟨⟨?_, ?_, ?_⟩, hsel, ?_, ?_, ?_⟩
  · intro h
    have h3 := prefixes_exclusive version h
    simp [pinnedVersions, h, h3]
  · intro h
    simp [pinnedVersions, h]
  · intro h2 h3
    simp [pinnedVersions, h2, h3]
  · simp only [PinGemAndBundlerVersion, Exec, emit_layer, emit_files]
    rcases h1 : env.Exec [Join [Join [w.layer.Path, "bin"], "gem"], "update", "--no-document",
      "--system", (pinnedVersions version).1] w.files with ⟨e1, f1⟩
    cases e1 with
    | some err =>
      refine ⟨1, by omega, ?_⟩
      simp [World.since, execCommands]
    | none =>
      simp only []
      rcases h2 : env.Exec ["rm", "-f", Join [Join [w.layer.Path, "bin"], "bundle"],
        Join [Join [w.layer.Path, "bin"], "bundler"]] f1 with ⟨e2, f2⟩
      cases e2 with
      | some err =>
        refine ⟨2, by omega, ?_⟩
        simp [World.since, execCommands]
      | none =>
        refine ⟨3, by omega, ?_⟩
        cases hb : (pinnedVersions version).2
        · simp only [Bool.false_eq_true, if_false, emit_log, emit_files, emit_layer]
          rcases h3 : env.Exec (bundlerCommand (Join [Join [w.layer.Path, "bin"], "gem"]) false)
            f2 with ⟨e3, f3⟩
          cases e3 <;> simp [World.since, execCommands]
        · simp only [if_true, emit_log, emit_files, emit_layer]
          rcases h3 : env.Exec (bundlerCommand (Join [Join [w.layer.Path, "bin"], "gem"]) true)
            f2 with ⟨e3, f3⟩
          cases e3 <;> simp [World.since, execCommands]
  · intro h1 h2
    simp only [PinGemAndBundlerVersion, Exec, emit_layer, emit_files]
    rcases hx1 : env.Exec [Join [Join [w.layer.Path, "bin"], "gem"], "update", "--no-document",
      "--system", (pinnedVersions version).1] w.files with ⟨e1, f1⟩
    rw [hx1] at h1 h2
    dsimp only at h1 h2
    subst h1
    simp only []
    rcases hx2 : env.Exec ["rm", "-f", Join [Join [w.layer.Path, "bin"], "bundle"],
      Join [Join [w.layer.Path, "bin"], "bundler"]] f1 with ⟨e2, f2⟩
    rw [hx2] at h2
    dsimp only at h2
    subst h2
    cases hb : (pinnedVersions version).2
    · simp only [Bool.false_eq_true, if_false, emit_log, emit_files, emit_layer]
      rcases h3 : env.Exec (bundlerCommand (Join [Join [w.layer.Path, "bin"], "gem"]) false)
        f2 with ⟨e3, f3⟩
      cases e3 <;> simp [World.since, execCommands]
    · simp only [if_true, emit_log, emit_files, emit_layer]
      rcases h3 : env.Exec (bundlerCommand (Join [Join [w.layer.Path, "bin"], "gem"]) true)
        f2 with ⟨e3, f3⟩
      cases e3 <;> simp [World.since, execCommands]
  · intro gemPath
    rw [← hsel]
    cases hb : (pinnedVersions version).2 <;> simp [bundlerCommand]

/-- C8 (witness): pinning for Ruby 2.7.5, which starts with `2.`. -/
theorem PinGemAndBundlerVersion_pins_witness :
    HasPrefix "2.7.5" "2." = true ∧ (pinnedVersions "2.7.5").1 = "3.1.2" ∧
      execCommands (World.since (PinGemAndBundlerVersion offline "2.7.5" installed).2 installed) =
        [["/layers/runtime/bin/gem", "update", "--no-document", "--system", "3.1.2"],
          ["rm", "-f", "/layers/runtime/bin/bundle", "/layers/runtime/bin/bundler"],
          ["/layers/runtime/bin/gem", "install", "--no-document", "bundler:2.1.4",
            "bundler:1.17.3"]] :=
  ⟨by decide, (PinGemAndBundlerVersion_pins offline "2.7.5" installed).1.1 (by decide),
    (PinGemAndBundlerVersion_pins offline "2.7.5" installed).2.2.2.1 rfl rfl⟩

/-- C9 (counterexample): the archive unpacks to `dart-sdk/bin` and `dart-sdk/lib`; after the
install returns nil, `bin` and `lib` are directly under the layer, and `dart-sdk` is still
there, as an empty directory. -/
theorem InstallDartSDK_keeps_inner_directory :
    (InstallDartSDK (online "1.22.19") "3.0.0" fresh).1 = none ∧
      (InstallDartSDK (online "1.22.19") "3.0.0" fresh).2.files =
        [("dart-sdk", .dir []), ("bin", .dir [("dart", .file "elf")]), ("lib", .dir [])] ∧
      lookupEntry "dart-sdk" (InstallDartSDK (online "1.22.19") "3.0.0" fresh).2.files =
        some (.dir []) :=
  ⟨rfl, rfl, rfl⟩

/-- C9 (amended): when `InstallDartSDK` returns nil, every entry that the unzip step placed
under `<layer>/dart-sdk`, other than one bearing the name of the temporary archive, is
afterwards directly under `<layer>`, and `<layer>/dart-sdk` still exists as an empty
directory. -/
theorem InstallDartSDK_layout (env : Env) (version : String) (w : World)
    (h : (InstallDartSDK env version w).1 = none) :
    ∃ random body inner,
      env.TempFile w.layer.Path "dart-sdk-*.zip" = .ok random ∧
      env.GetURL (dartSdkURL version) = (none, body) ∧
      readDartSdk
        (env.Exec ["unzip", "-q", Join [w.layer.Path, dartZipName random], "-d", w.layer.Path]
          [(dartZipName random, .file body)]).2 = .ok inner ∧
      (∀ name node, (name, node) ∈ inner → name ≠ dartZipName random →
        lookupEntry name (InstallDartSDK env version w).2.files = some node) ∧
      lookupEntry "dart-sdk" (InstallDartSDK env version w).2.files = some (.dir []) := by
  rcases hc : env.clearLayerFailure w.layer.Path w.files with _ | ⟨e, left⟩
  swap
  · simp [InstallDartSDK, ClearLayer, hc] at h
  cases ht : env.TempFile w.layer.Path "dart-sdk-*.zip" with
  | error err => simp [InstallDartSDK, ClearLayer, hc, ht] at h
  | ok random =>
    rcases hg : env.GetURL (dartSdkURL version) with ⟨ge, body⟩
    cases ge with
    | some err => simp [InstallDartSDK, ClearLayer, hc, ht, installDartSDKBody, hg] at h
    | none =>
      rcases hx : env.Exec ["unzip", "-q", Join [w.layer.Path, dartZipName random], "-d",
        w.layer.Path] [(dartZipName random, .file body)] with ⟨xe, U⟩
      cases xe with
      | some err =>
        simp [InstallDartSDK, ClearLayer, hc, ht, installDartSDKBody, hg, Exec, setEntry, hx] at h
      | none =>
        cases hr : readDartSdk U with
        | error err =>
          simp [InstallDartSDK, ClearLayer, hc, ht, installDartSDKBody, hg, Exec, setEntry, hx,
            hr] at h
        | ok inner =>
          refine ⟨random, body, inner, rfl, rfl, by rw [hx]; exact hr, ?_⟩
          simp only [InstallDartSDK, ClearLayer, hc, ht, installDartSDKBody, hg, Exec, setEntry,
            ↓reduceIte, hx, hr, emit_files, emit_layer, emit_log, emit_PATH] at h ⊢
          generalize hm : moveUp w.layer.Path inner _ = m at h ⊢
          obtain ⟨me, w2⟩ := m
          cases me with
          | some err => simp at h
          | none =>
            obtain ⟨hnd, hmoved, hleft, _, _⟩ :=
              moveUp_ok _ _ _ _ inner (readDartSdk_ok U inner hr) hm
            dsimp only
            constructor
            · intro name node hmem hne
              rw [lookupEntry_Remove_ne _ _ _ hne]
              rw [(hmoved name (List.mem_map_of_mem Prod.fst hmem)).2]
              exact lookupEntry_of_mem inner hnd name node hmem
            · rw [lookupEntry_Remove_ne _ _ _ (Ne.symm (dartZipName_ne random))]
              rw [hleft]
              congr 2
              rw [List.filter_eq_nil_iff]
              intro e he
              simpa using List.mem_map_of_mem Prod.fst he

/-- An entry of `dart-sdk` named like the temporary archive takes that file's place when it
is moved up, and the deferred removal of the temporary archive then deletes it. -/
theorem InstallDartSDK_entry_named_like_archive :
    (InstallDartSDK { online "1.22.19" with Exec := clashingExec } "3.0.0" fresh).1 = none ∧
      (InstallDartSDK { online "1.22.19" with Exec := clashingExec } "3.0.0" fresh).2.files =
        [("dart-sdk", .dir []), ("bin", .dir [])] :=
  ⟨rfl, rfl⟩

/-- C9 (witness): the sample archive, unpacked into a fresh layer. -/
theorem InstallDartSDK_layout_witness :
    (InstallDartSDK (online "1.22.19") "3.0.0" fresh).1 = none ∧
      ∃ random body inner,
        (online "1.22.19").TempFile fresh.layer.Path "dart-sdk-*.zip" = .ok random ∧
        (online "1.22.19").GetURL (dartSdkURL "3.0.0") = (none, body) ∧
        readDartSdk
          ((online "1.22.19").Exec
            ["unzip", "-q", Join [fresh.layer.Path, dartZipName random], "-d", fresh.layer.Path]
            [(dartZipName random, .file body)]).2 = .ok inner ∧
        (∀ name node, (name, node) ∈ inner → name ≠ dartZipName random →
          lookupEntry name (InstallDartSDK (online "1.22.19") "3.0.0" fresh).2.files =
            some node) ∧
        lookupEntry "dart-sdk" (InstallDartSDK (online "1.22.19") "3.0.0" fresh).2.files =
          some (.dir []) :=
  ⟨rfl, InstallDartSDK_layout (online "1.22.19") "3.0.0" fresh rfl⟩

/-- When the version does not parse, `InstallYarn` does not return: the error it builds is
dropped and the nil version is dereferenced. Nothing has been fetched or created by then. -/
theorem InstallYarn_of_parse_error (env : Env) (dir version : String) (w : World) (err : String)
    (h : env.NewVersion version = .error err) :
    InstallYarn env dir version w =
      (.panicked "invalid memory address or nil pointer dereference", w) := by
  simp [InstallYarn, h]

/-- C10 (the code at the failing input): for the version string `latest`, which does not
parse, `InstallYarn` returns no error to its caller; it panics on the nil version. -/
theorem InstallYarn_unparsable_panics :
    offline.NewVersion "latest" = .error "Invalid Semantic Version" ∧
      InstallYarn offline "/layers/yarn" "latest" fresh =
        (.panicked "invalid memory address or nil pointer dereference", fresh) ∧
      ∀ err, (InstallYarn offline "/layers/yarn" "latest" fresh).1 ≠ .returned (some err) :=
  ⟨rfl, rfl, fun err => by
    rw [InstallYarn_of_parse_error offline "/layers/yarn" "latest" fresh "Invalid Semantic Version" rfl]
    simp⟩

end Buildpacks
